import Mathlib

/-!
Shallow embedding of the Living Chronicle simulation core
(src/chronicle/sim: ages.py, events.py, entities.py, gods.py, engine.py).

Python floats are modelled as rationals (ℚ); the shared `random.Random`
stream is modelled as a deterministic linear-congruential stream threaded
explicitly through every operation, exposing the same draw interface the
source uses (`random`, `uniform`, `randint`, `choice`, `sample`).  Dict
lookups with a default are modelled as total functions (for citizen belief
vectors, whose keys always cover all domains) or `Option`-valued functions
(for faction doctrine dicts, whose `get(domain, 0.5)` default is part of
`Faction.get_bias`).  The SQLite tables are modelled as the lists held in
the engine state: an UPDATE keeps a row in place, an INSERT appends.
-/

namespace Chronicle

/-- The six belief domains (models.DOMAINS). -/
inductive Domain
  | river
  | flame
  | sky
  | war
  | harvest
  | memory
deriving DecidableEq

/-- models.DOMAINS, in source order. -/
def DOMAINS : List Domain :=
  [Domain.river, Domain.flame, Domain.sky, Domain.war, Domain.harvest, Domain.memory]

/-! ## Pseudorandom stream

`random.Random(seed)` is a deterministic generator; we model it by a
31-bit linear congruential generator state.  The exact numeric stream is
a stand-in for the Mersenne Twister; every consumer draws from the one
shared state in the order of the source, which is what the spec's
determinism and bound claims depend on. -/

/-- One LCG step (stand-in for the Mersenne Twister advance). -/
def lcgNext (x : Nat) : Nat := (1103515245 * x + 12345) % 2147483648

/-- Shared pseudorandom generator state (random.Random). -/
structure Rng where
  state : Nat
deriving DecidableEq

/-- random.Random(seed). -/
def mkRandom (seed : Nat) : Rng := ⟨seed % 2147483648⟩

/-- Draw a raw 31-bit value. -/
def Rng.nextNat (r : Rng) : Nat × Rng :=
  let x := lcgNext r.state
  (x, ⟨x⟩)

/-- rng.random(): a value in [0, 1). -/
def Rng.random (r : Rng) : ℚ × Rng :=
  let p := r.nextNat
  ((p.1 : ℚ) / 2147483648, p.2)

/-- rng.uniform(a, b). -/
def Rng.uniform (r : Rng) (a b : ℚ) : ℚ × Rng :=
  let p := r.random
  (a + p.1 * (b - a), p.2)

/-- rng.randint(a, b): an integer in [a, b] (both ends inclusive). -/
def Rng.randint (r : Rng) (a b : Nat) : Nat × Rng :=
  let p := r.nextNat
  (a + p.1 % (b - a + 1), p.2)

/-- rng.choice(xs): an element of xs (xs is never empty at the call sites;
`dflt` is returned only for an empty list). -/
def Rng.choice {α : Type} (r : Rng) (xs : List α) (dflt : α) : α × Rng :=
  let p := r.nextNat
  (xs.getD (p.1 % xs.length) dflt, p.2)

/-- rng.sample(xs, k): k distinct elements, modelled by repeated draws
without replacement. -/
def Rng.sample {α : Type} (r : Rng) (xs : List α) (dflt : α) : Nat → List α × Rng
  | 0 => ([], r)
  | k + 1 =>
    match xs with
    | [] => ([], r)
    | _ :: _ =>
      let p := r.nextNat
      let idx := p.1 % xs.length
      let chosen := xs.getD idx dflt
      let rest := Rng.sample p.2 (xs.eraseIdx idx) dflt k
      (chosen :: rest.1, rest.2)

/-! ## Ages (ages.py) -/

/-- The six ages of the cycle (ages.Age). -/
inductive Age
  | emergence
  | order
  | strain
  | collapse
  | silence
  | rebirth
deriving DecidableEq

/-- Age.next: the successor in the fixed cycle. -/
def Age.next : Age → Age
  | .emergence => .order
  | .order => .strain
  | .strain => .collapse
  | .collapse => .silence
  | .silence => .rebirth
  | .rebirth => .emergence

/-- Static per-age characteristics (ages.AGE_TRAITS entries). -/
structure AgeTraits where
  min_days : Nat
  max_days : Nat
  event_rate : ℚ
  belief_growth : ℚ
  fear_modifier : ℚ
  gratitude_modifier : ℚ
deriving DecidableEq

/-- ages.AGE_TRAITS. -/
def AGE_TRAITS : Age → AgeTraits
  | .emergence => ⟨20, 40, 0.6, 1.2, 0.3, 0.7⟩
  | .order => ⟨30, 60, 0.4, 1.0, 0.2, 0.8⟩
  | .strain => ⟨25, 45, 0.7, 1.1, 0.6, 0.4⟩
  | .collapse => ⟨15, 30, 0.9, 0.8, 0.9, 0.1⟩
  | .silence => ⟨10, 25, 0.2, 0.5, 0.5, 0.3⟩
  | .rebirth => ⟨15, 35, 0.5, 1.3, 0.4, 0.6⟩

/-- ages.AgeManager state: the era clock.  The rng it draws from is
threaded explicitly instead of being stored in the structure. -/
structure AgeManager where
  current_age : Age
  day_counter : Nat
  age_duration : Nat
deriving DecidableEq

/-- AgeManager.new: start at Emergence with a drawn duration. -/
def AgeManager.new (rng : Rng) : AgeManager × Rng :=
  let traits := AGE_TRAITS Age.emergence
  let p := rng.randint traits.min_days traits.max_days
  (⟨Age.emergence, 0, p.1⟩, p.2)

/-- AgeManager.from_state: restore from a persisted (era, daysInEra) pair;
the unpersisted duration is re-derived as max(daysInEra+1, minDuration). -/
def AgeManager.from_state (age : Age) (day_counter : Nat) : AgeManager :=
  let traits := AGE_TRAITS age
  ⟨age, day_counter, max (day_counter + 1) traits.min_days⟩

/-- AgeManager._transition: move to the next age, reset the counter and
draw a fresh duration from the new age's [min, max] range. -/
def AgeManager.transition (m : AgeManager) (rng : Rng) : AgeManager × Age × Rng :=
  let newAge := m.current_age.next
  let traits := AGE_TRAITS newAge
  let p := rng.randint traits.min_days traits.max_days
  (⟨newAge, 0, p.1⟩, newAge, p.2)

/-- AgeManager.tick: advance one day, transitioning when the counter
reaches the drawn duration. -/
def AgeManager.tick (m : AgeManager) (rng : Rng) : AgeManager × Option Age × Rng :=
  let m1 : AgeManager := ⟨m.current_age, m.day_counter + 1, m.age_duration⟩
  if m1.age_duration ≤ m1.day_counter then
    let t := m1.transition rng
    (t.1, some t.2.1, t.2.2)
  else
    (m1, none, rng)

/-- Iterate the era clock n days, threading the rng. -/
def AgeManager.run (m : AgeManager) (rng : Rng) : Nat → AgeManager × Rng
  | 0 => (m, rng)
  | n + 1 =>
    let t := m.tick rng
    AgeManager.run t.1 t.2.2 n

/-- The era-clock state invariant claimed by the spec: the day counter is
strictly below the drawn duration, and the duration lies in the current
age's [min_days, max_days] range. -/
def AgeManager.Inv (m : AgeManager) : Prop :=
  m.day_counter < m.age_duration ∧
  (AGE_TRAITS m.current_age).min_days ≤ m.age_duration ∧
  m.age_duration ≤ (AGE_TRAITS m.current_age).max_days

/-! ## Events (events.py) -/

/-- An event/omen (events.Event). -/
structure Event where
  name : String
  description : String
  primary_domain : Domain
  secondary_domain : Option Domain
  fear_impact : ℚ
  gratitude_impact : ℚ
  belief_impact : ℚ
  magnitude : ℚ
deriving DecidableEq

/-- One row of events.EVENT_TEMPLATES: (name, description, fear,
gratitude, belief). -/
structure EventTemplate where
  name : String
  description : String
  fear : ℚ
  grat : ℚ
  belief : ℚ
deriving DecidableEq

/-- events.EVENT_TEMPLATES. -/
def EVENT_TEMPLATES : Domain → List EventTemplate
  | .river =>
    [⟨"The Great Flooding", "Waters rise beyond their banks", 0.4, -0.2, 0.3⟩,
     ⟨"The Still Waters", "Rivers calm to mirror-glass", -0.2, 0.3, 0.2⟩,
     ⟨"The River's Bounty", "Fish leap willingly into nets", -0.1, 0.5, 0.4⟩,
     ⟨"The Poisoned Springs", "Wells turn bitter and foul", 0.5, -0.3, 0.3⟩,
     ⟨"The Parting Currents", "Waters divide before the faithful", 0.1, 0.4, 0.5⟩]
  | .flame =>
    [⟨"The Consuming Fire", "Flames devour without warning", 0.6, -0.4, 0.4⟩,
     ⟨"The Warming Hearth", "All fires burn steady and true", -0.2, 0.4, 0.3⟩,
     ⟨"The Forge's Blessing", "Metalwork emerges flawless", -0.1, 0.5, 0.4⟩,
     ⟨"The Ember Rain", "Sparks fall from cloudless sky", 0.5, -0.2, 0.5⟩,
     ⟨"The Eternal Flame", "A fire burns without fuel", 0.2, 0.3, 0.6⟩]
  | .sky =>
    [⟨"The Darkened Sun", "Shadow crosses the daylight", 0.5, -0.3, 0.5⟩,
     ⟨"The Gentle Rains", "Clouds bring life-giving water", -0.2, 0.5, 0.3⟩,
     ⟨"The Thunder Voice", "Lightning speaks across valleys", 0.3, 0.1, 0.4⟩,
     ⟨"The Clear Heavens", "Stars align in ancient patterns", 0.1, 0.4, 0.4⟩,
     ⟨"The Howling Winds", "Gales tear at all standing", 0.5, -0.3, 0.3⟩]
  | .war =>
    [⟨"The Border Clash", "Blood spills at the boundaries", 0.4, -0.2, 0.3⟩,
     ⟨"The Victorious Return", "Warriors come home triumphant", 0.1, 0.5, 0.4⟩,
     ⟨"The Broken Peace", "Old alliances shatter", 0.5, -0.4, 0.4⟩,
     ⟨"The Honorable Duel", "Champions settle disputes", 0.2, 0.2, 0.3⟩,
     ⟨"The Siege Lifted", "Enemies retreat in defeat", 0.0, 0.6, 0.5⟩]
  | .harvest =>
    [⟨"The Abundant Yield", "Fields overflow with grain", -0.2, 0.6, 0.4⟩,
     ⟨"The Blighted Crops", "Rot spreads through stores", 0.5, -0.4, 0.3⟩,
     ⟨"The First Fruits", "Early harvest brings hope", -0.1, 0.4, 0.3⟩,
     ⟨"The Locust Swarm", "Insects devour all growth", 0.6, -0.5, 0.4⟩,
     ⟨"The Golden Fields", "Grain grows tall and strong", -0.2, 0.5, 0.4⟩]
  | .memory =>
    [⟨"The Forgotten Name", "Ancient knowledge is lost", 0.3, -0.2, 0.3⟩,
     ⟨"The Recovered Scroll", "Old wisdom resurfaces", 0.1, 0.4, 0.4⟩,
     ⟨"The Prophetic Dream", "Visions reveal hidden truths", 0.2, 0.3, 0.5⟩,
     ⟨"The Ancestral Voice", "The dead speak to the living", 0.3, 0.2, 0.5⟩,
     ⟨"The Chronicle Burns", "Records are destroyed", 0.4, -0.3, 0.3⟩]

/-- Per-age event modifiers (events.AGE_EVENT_MODIFIERS). -/
structure AgeEventModifiers where
  magnitude_boost : ℚ
  positive_bias : ℚ
deriving DecidableEq

/-- events.AGE_EVENT_MODIFIERS. -/
def AGE_EVENT_MODIFIERS : Age → AgeEventModifiers
  | .emergence => ⟨0.1, 0.1⟩
  | .order => ⟨-0.1, 0.2⟩
  | .strain => ⟨0.1, -0.1⟩
  | .collapse => ⟨0.3, -0.3⟩
  | .silence => ⟨-0.2, 0.0⟩
  | .rebirth => ⟨0.0, 0.2⟩

/-- A default template, only used as the never-taken fallback of
rng.choice on the (always non-empty) template tables. -/
def defaultTemplate : EventTemplate := ⟨"", "", 0, 0, 0⟩

/-- EventGenerator.generate_event. -/
def generate_event (rng : Rng) (age : Age) (event_rate : ℚ) : Option Event × Rng :=
  let roll := rng.random
  if event_rate < roll.1 then
    (none, roll.2)
  else
    let prim := Rng.choice roll.2 DOMAINS Domain.river
    let primary_domain := prim.1
    let templates := EVENT_TEMPLATES primary_domain
    let tpl := Rng.choice prim.2 templates defaultTemplate
    let tmpl := tpl.1
    let sec := Rng.random tpl.2
    let secp : Option Domain × Rng :=
      if sec.1 < 0.3 then
        let others := DOMAINS.filter (fun d => d ≠ primary_domain)
        let sd := Rng.choice sec.2 others Domain.river
        (some sd.1, sd.2)
      else
        (none, sec.2)
    let modifiers := AGE_EVENT_MODIFIERS age
    let jit := Rng.uniform secp.2 (-0.2) 0.2
    let magnitude := max 0.1 (min 1.0 (0.5 + jit.1 + modifiers.magnitude_boost))
    let bias := modifiers.positive_bias
    let fear := tmpl.fear - bias * 0.2
    let grat := tmpl.grat + bias * 0.2
    (some ⟨tmpl.name, tmpl.description, primary_domain, secp.1,
           fear * magnitude, grat * magnitude, tmpl.belief * magnitude, magnitude⟩,
     jit.2)

/-! ## Name generation pools (entities.py) -/

/-- entities.CITIZEN_PREFIXES (first halves of citizen names). -/
def CITIZEN_NAME_STARTS : List String :=
  ["Ash", "Brin", "Cal", "Dara", "Eld", "Fenn", "Gael", "Haran", "Isen", "Jora",
   "Kael", "Lira", "Morn", "Neth", "Oren", "Pira", "Quell", "Rath", "Sev", "Tarn",
   "Ula", "Vorn", "Wren", "Xan", "Yara", "Zeph"]

/-- entities.CITIZEN_SUFFIXES (second halves of citizen names). -/
def CITIZEN_NAME_ENDS : List String :=
  ["an", "el", "is", "on", "us", "a", "en", "or", "ia", "yn",
   "ax", "ix", "eth", "oth", "ara", "ira", "ona", "ius", "eon", "wyn"]

/-- entities.FACTION_ADJECTIVES. -/
def FACTION_ADJECTIVES : List String :=
  ["Crimson", "Azure", "Golden", "Ashen", "Verdant", "Obsidian", "Silver", "Amber"]

/-- entities.FACTION_NOUNS. -/
def FACTION_NOUNS : List String :=
  ["Covenant", "Circle", "Order", "Pact", "Brotherhood", "Sisterhood", "Assembly", "Conclave"]

/-- entities.GOD_PREFIXES (first halves of god names, per domain). -/
def GOD_NAME_STARTS : Domain → List String
  | .river => ["Aqua", "Thal", "Riv", "Und", "Mare"]
  | .flame => ["Pyr", "Igna", "Braz", "Cind", "Scor"]
  | .sky => ["Ael", "Cael", "Zeph", "Aur", "Nub"]
  | .war => ["Bel", "Mort", "Vic", "Mar", "Stri"]
  | .harvest => ["Cer", "Fert", "Plen", "Grai", "Boun"]
  | .memory => ["Mnem", "Chron", "Eter", "Rem", "Hist"]

/-- entities.GOD_SUFFIXES (second halves of god names). -/
def GOD_NAME_ENDS : List String :=
  ["us", "a", "ion", "or", "is", "ax", "oth", "iel", "ara", "eon"]

/-- entities.generate_citizen_name. -/
def generate_citizen_name (rng : Rng) : String × Rng :=
  let a := rng.choice CITIZEN_NAME_STARTS ""
  let b := Rng.choice a.2 CITIZEN_NAME_ENDS ""
  (a.1 ++ b.1, b.2)

/-- entities.generate_faction_name. -/
def generate_faction_name (rng : Rng) : String × Rng :=
  let a := rng.choice FACTION_ADJECTIVES ""
  let b := Rng.choice a.2 FACTION_NOUNS ""
  ("The " ++ a.1 ++ " " ++ b.1, b.2)

/-- entities.generate_god_name. -/
def generate_god_name (domain : Domain) (rng : Rng) : String × Rng :=
  let a := rng.choice (GOD_NAME_STARTS domain) ""
  let b := Rng.choice a.2 GOD_NAME_ENDS ""
  (a.1 ++ b.1, b.2)

/-! ## Entities (entities.py) -/

/-- A citizen (entities.Citizen over models.CitizenRow).  The belief
dict is modelled as a total function: `belief_vector.get(domain, 0.0)`
corresponds to plain application, and generation fills every domain. -/
structure Citizen where
  name : String
  faction_id : Option Nat
  belief_vector : Domain → ℚ
  fear : ℚ
  gratitude : ℚ
  alive : Bool

/-- Draw `rng.uniform(0, 0.3)` for every domain of the given list, in
list order; unlisted domains keep the dict-get default 0. -/
def drawBeliefVector : List Domain → Rng → (Domain → ℚ) × Rng
  | [], rng => (fun _ => 0, rng)
  | d :: ds, rng =>
    let v := rng.uniform 0 0.3
    let f := drawBeliefVector ds v.2
    ((fun d' => if d' = d then v.1 else f.1 d'), f.2)

/-- Citizen.generate: random beliefs in [0, 0.3], then name, then fear
and gratitude in [0.1, 0.4]; alive is true.  (The belief dict is built
before the row constructor's arguments are evaluated, so its draws come
first, matching the source's draw order.) -/
def Citizen.generate (faction_id : Option Nat) (rng : Rng) : Citizen × Rng :=
  let bv := drawBeliefVector DOMAINS rng
  let nm := generate_citizen_name bv.2
  let fe := Rng.uniform nm.2 0.1 0.4
  let gr := Rng.uniform fe.2 0.1 0.4
  (⟨nm.1, faction_id, bv.1, fe.1, gr.1, true⟩, gr.2)

/-- Citizen.update_belief: add delta × faction_bias to the domain's
belief and clamp to [0, 1]. -/
def Citizen.update_belief (c : Citizen) (domain : Domain) (delta : ℚ)
    (faction_bias : ℚ) : Citizen :=
  let current := c.belief_vector domain
  let new_value := max 0 (min 1 (current + delta * faction_bias))
  { c with belief_vector := fun d' => if d' = domain then new_value else c.belief_vector d' }

/-- Citizen.update_emotion: add the deltas to fear and gratitude,
clamping each to [0, 1]. -/
def Citizen.update_emotion (c : Citizen) (fear_delta : ℚ) (gratitude_delta : ℚ) : Citizen :=
  { c with
    fear := max 0 (min 1 (c.fear + fear_delta)),
    gratitude := max 0 (min 1 (c.gratitude + gratitude_delta)) }

/-- A faction (entities.Faction over models.FactionRow).  The doctrine
dict is Option-valued so that `get_bias`'s `get(domain, 0.5)` default is
visible; generation fills every domain. -/
structure Faction where
  id : Nat
  name : String
  doctrine_bias : Domain → Option ℚ

/-- Faction.get_bias: the doctrine dict's value, defaulting to 0.5 for a
domain absent from the dict. -/
def Faction.get_bias (f : Faction) (domain : Domain) : ℚ :=
  (f.doctrine_bias domain).getD 0.5

/-- Draw `rng.uniform(0.1, 0.4)` for every domain, in list order. -/
def drawDoctrine : List Domain → Rng → (Domain → Option ℚ) × Rng
  | [], rng => ((fun _ => none), rng)
  | d :: ds, rng =>
    let v := rng.uniform 0.1 0.4
    let f := drawDoctrine ds v.2
    ((fun d' => if d' = d then some v.1 else f.1 d'), f.2)

/-- Overwrite each favored domain's doctrine entry with
`rng.uniform(0.7, 1.0)`, in favored order. -/
def elevateFavored : List Domain → (Domain → Option ℚ) → Rng → (Domain → Option ℚ) × Rng
  | [], doc, rng => (doc, rng)
  | d :: ds, doc, rng =>
    let v := rng.uniform 0.7 1.0
    elevateFavored ds (fun d' => if d' = d then some v.1 else doc d') v.2

/-- Faction.generate: baseline doctrine in [0.1, 0.4] with 1–2 favored
domains elevated to [0.7, 1.0], then the name.  The id is the
database-assigned row id, passed in by the caller. -/
def Faction.generate (id : Nat) (rng : Rng) : Faction × Rng :=
  let doc := drawDoctrine DOMAINS rng
  let k := Rng.randint doc.2 1 2
  let favored := Rng.sample k.2 DOMAINS Domain.river k.1
  let doc2 := elevateFavored favored.1 doc.1 favored.2
  let nm := generate_faction_name doc2.2
  (⟨id, nm.1, doc2.1⟩, nm.2)

/-- A myth (entities.Myth over models.MythRow). -/
structure Myth where
  text : String
  faction_id : Option Nat
  domain : Domain
  confidence : ℚ
  day_created : Nat
deriving DecidableEq

/-- A god (entities.God over models.GodRow). -/
structure God where
  name : String
  domain : Domain
  belief_strength : ℚ
  coherence : ℚ
  alive : Bool
  birth_day : Nat
  death_day : Option Nat
  consecutive_strong_days : Nat
  consecutive_weak_days : Nat
deriving DecidableEq

/-- God.birth: a fresh living god with zeroed streak counters. -/
def God.birth (domain : Domain) (belief_strength : ℚ) (coherence : ℚ)
    (day : Nat) (rng : Rng) : God × Rng :=
  let nm := generate_god_name domain rng
  (⟨nm.1, domain, belief_strength, coherence, true, day, none, 0, 0⟩, nm.2)

/-- God.fade: mark the god dead, recording the death day. -/
def God.fade (g : God) (day : Nat) : God :=
  { g with alive := false, death_day := some day }

/-- God.update_strength: refresh stored strength and coherence. -/
def God.update_strength (g : God) (new_strength : ℚ) (new_coherence : ℚ) : God :=
  { g with belief_strength := new_strength, coherence := new_coherence }

/-! ## God system (gods.py) -/

/-- gods.BELIEF_THRESHOLD: minimum aggregate belief to birth a god. -/
def BELIEF_THRESHOLD : ℚ := 0.6

/-- gods.COHERENCE_THRESHOLD: minimum coherence to birth a god. -/
def COHERENCE_THRESHOLD : ℚ := 0.5

/-- gods.CONSECUTIVE_DAYS_BIRTH: days above threshold to birth. -/
def CONSECUTIVE_DAYS_BIRTH : Nat := 5

/-- gods.CONSECUTIVE_DAYS_FADE: days below threshold to fade. -/
def CONSECUTIVE_DAYS_FADE : Nat := 7

/-- gods.FADE_THRESHOLD: belief below this starts the fade counter. -/
def FADE_THRESHOLD : ℚ := 0.3

/-- gods.BeliefAggregation. -/
structure BeliefAggregation where
  domain : Domain
  total_belief : ℚ
  believer_count : Nat
  average_belief : ℚ
  coherence : ℚ
deriving DecidableEq

/-- The body of GodSystem.aggregate_beliefs for one domain: mean belief,
population variance, coherence = max(0, 1 − variance·4), believer count;
all zero for an empty population. -/
def aggregateDomain (domain : Domain) (citizens : List Citizen) : BeliefAggregation :=
  let beliefs := citizens.map (fun c => c.belief_vector domain)
  if beliefs.isEmpty then
    ⟨domain, 0, 0, 0, 0⟩
  else
    let total := beliefs.sum
    let avg := total / beliefs.length
    let variance := (beliefs.map (fun b => ((b - avg) ^ 2 : ℚ))).sum / beliefs.length
    let coherence := max 0 (1 - variance * 4)
    let believer_count := (beliefs.filter (fun b => 0.3 < b)).length
    ⟨domain, total, believer_count, avg, coherence⟩

/-- GodSystem.aggregate_beliefs: the per-domain aggregation dict, as a
function. -/
def aggregate_beliefs (citizens : List Citizen) : Domain → BeliefAggregation :=
  fun d => aggregateDomain d citizens

/-- The per-living-god body of GodSystem.process_gods: refresh strength
and coherence from the aggregation, then advance the weak/strong streak
counters, fading when the weak streak reaches CONSECUTIVE_DAYS_FADE. -/
def fadeStep (aggs : Domain → BeliefAggregation) (current_day : Nat) (g : God) : God :=
  let agg := aggs g.domain
  let g := g.update_strength agg.average_belief agg.coherence
  if agg.average_belief < FADE_THRESHOLD then
    let g := { g with
      consecutive_weak_days := g.consecutive_weak_days + 1,
      consecutive_strong_days := 0 }
    if CONSECUTIVE_DAYS_FADE ≤ g.consecutive_weak_days then g.fade current_day else g
  else
    { g with
      consecutive_weak_days := 0,
      consecutive_strong_days := g.consecutive_strong_days + 1 }

/-- The gods table after the fade pass: living gods are updated in place
(an UPDATE keeps the row where it was), dead rows are untouched. -/
def updateExisting (aggs : Domain → BeliefAggregation) (current_day : Nat)
    (gods : List God) : List God :=
  gods.map (fun g => if g.alive then fadeStep aggs current_day g else g)

/-- The gods reported as newly faded by the fade pass, in table order. -/
def fadedOf (aggs : Domain → BeliefAggregation) (current_day : Nat)
    (gods : List God) : List God :=
  gods.filterMap (fun g =>
    if g.alive then
      let g' := fadeStep aggs current_day g
      if g'.alive then none else some g'
    else none)

/-- Whether a god is alive and belongs to the given domain. -/
def godLivingIn (d : Domain) (g : God) : Bool :=
  g.alive && decide (g.domain = d)

/-- The living gods of a domain in a gods table (the membership test
behind `living_domains`). -/
def livingGodsIn (gods : List God) (d : Domain) : List God :=
  gods.filter (godLivingIn d)

/-- The birth loop of GodSystem.process_gods, iterating the aggregation
dict in DOMAINS order: domains with a living god have their ascending
counter reset; otherwise a day meeting both thresholds increments it,
birthing a god (and resetting the counter) when it reaches
CONSECUTIVE_DAYS_BIRTH, and a day missing either threshold resets it. -/
def birthLoop (aggs : Domain → BeliefAggregation) (living : Domain → Bool)
    (current_day : Nat) :
    List Domain → (Domain → Nat) → Rng → ((Domain → Nat) × List God × Rng)
  | [], proto, rng => (proto, [], rng)
  | d :: ds, proto, rng =>
    if living d then
      birthLoop aggs living current_day ds (fun e => if e = d then 0 else proto e) rng
    else
      let agg := aggs d
      if BELIEF_THRESHOLD ≤ agg.average_belief ∧ COHERENCE_THRESHOLD ≤ agg.coherence then
        let newCount := proto d + 1
        let proto1 : Domain → Nat := fun e => if e = d then newCount else proto e
        if CONSECUTIVE_DAYS_BIRTH ≤ newCount then
          let gb := God.birth d agg.average_belief agg.coherence current_day rng
          let proto2 : Domain → Nat := fun e => if e = d then 0 else proto1 e
          let res := birthLoop aggs living current_day ds proto2 gb.2
          (res.1, gb.1 :: res.2.1, res.2.2)
        else
          birthLoop aggs living current_day ds proto1 rng
      else
        birthLoop aggs living current_day ds (fun e => if e = d then 0 else proto e) rng

/-- GodSystem.process_gods: aggregate beliefs, run the fade pass over the
living gods, then the birth loop over domains with no currently-living
god.  Returns (gods table, ascending counters, born, faded, rng).
Newly born gods are INSERTed, i.e. appended to the table. -/
def process_gods (citizens : List Citizen) (current_day : Nat) (gods : List God)
    (proto : Domain → Nat) (rng : Rng) :
    List God × (Domain → Nat) × List God × List God × Rng :=
  let aggs := aggregate_beliefs citizens
  let updated := updateExisting aggs current_day gods
  let faded := fadedOf aggs current_day gods
  let living : Domain → Bool := fun d => !(livingGodsIn updated d).isEmpty
  let res := birthLoop aggs living current_day DOMAINS proto rng
  (updated ++ res.2.1, res.1, res.2.1, faded, res.2.2)

/-! ## Simulation engine (engine.py) -/

/-- engine.INITIAL_FACTIONS. -/
def INITIAL_FACTIONS : Nat := 3

/-- engine.INITIAL_CITIZENS_PER_FACTION. -/
def INITIAL_CITIZENS_PER_FACTION : Nat := 8

/-- engine.UNAFFILIATED_CITIZENS. -/
def UNAFFILIATED_CITIZENS : Nat := 5

/-- engine.TickResult. -/
structure TickResult where
  day : Nat
  age : Age
  event : Option Event
  age_transition : Option Age
  born_gods : List God
  faded_gods : List God
  new_myths : List Myth

/-- The whole mutable state of SimulationEngine plus its database:
the rng, the day, the era clock, the entity collections (citizen and
faction lists in insertion order), the gods table, the god system's
ascending counters and the myths table. -/
structure EngineState where
  seed : Nat
  rng : Rng
  current_day : Nat
  age_manager : AgeManager
  citizens : List Citizen
  factions : List Faction
  gods : List God
  proto_god_days : Domain → Nat
  myths : List Myth

/-- The faction-bias resolution of SimulationEngine._apply_event: 1.0
unless the citizen's faction_id is truthy (present and non-zero) and a
faction with that id exists, in which case that faction's get_bias. -/
def resolve_faction_bias (factions : List Faction) (c : Citizen) (d : Domain) : ℚ :=
  match c.faction_id with
  | none => 1.0
  | some fid =>
    if fid = 0 then 1.0
    else
      match factions.find? (fun f => f.id = fid) with
      | some f => f.get_bias d
      | none => 1.0

/-- The per-citizen body of SimulationEngine._apply_event: one jittered
belief delta applied to the primary domain (and, halved, to the optional
secondary domain) through the faction bias, then jittered fear and
gratitude deltas. -/
def applyEventToCitizen (factions : List Faction) (traits : AgeTraits) (ev : Event)
    (c : Citizen) (rng : Rng) : Citizen × Rng :=
  let faction_bias := resolve_faction_bias factions c ev.primary_domain
  let r1 := rng.random
  let belief_delta := ev.belief_impact * traits.belief_growth * (0.8 + r1.1 * 0.4)
  let c1 := c.update_belief ev.primary_domain belief_delta faction_bias
  let c2 :=
    match ev.secondary_domain with
    | some sd => c1.update_belief sd (belief_delta * 0.5) faction_bias
    | none => c1
  let r2 := Rng.random r1.2
  let fear_delta := ev.fear_impact * traits.fear_modifier * (0.8 + r2.1 * 0.4)
  let r3 := Rng.random r2.2
  let gratitude_delta := ev.gratitude_impact * traits.gratitude_modifier * (0.8 + r3.1 * 0.4)
  (c2.update_emotion fear_delta gratitude_delta, r3.2)

/-- SimulationEngine._apply_event: apply the event to every citizen in
collection order, threading the rng. -/
def applyEventToCitizens (factions : List Faction) (traits : AgeTraits) (ev : Event) :
    List Citizen → Rng → List Citizen × Rng
  | [], rng => ([], rng)
  | c :: cs, rng =>
    let c' := applyEventToCitizen factions traits ev c rng
    let cs' := applyEventToCitizens factions traits ev cs c'.2
    (c'.1 :: cs'.1, cs'.2)

/-- SimulationEngine._create_myths: each faction independently creates a
myth with probability 0.3, with confidence equal to its bias toward the
event's primary domain. -/
def create_myths (ev : Event) (current_day : Nat) :
    List Faction → Rng → List Myth × Rng
  | [], rng => ([], rng)
  | f :: fs, rng =>
    let roll := rng.random
    if roll.1 < 0.3 then
      let m : Myth :=
        ⟨"The " ++ f.name ++ " witnessed " ++ ev.description,
         some f.id, ev.primary_domain, f.get_bias ev.primary_domain, current_day⟩
      let ms := create_myths ev current_day fs roll.2
      (m :: ms.1, ms.2)
    else
      create_myths ev current_day fs roll.2

/-- Generate n citizens for a faction id, in order. -/
def genCitizens (faction_id : Option Nat) : Nat → Rng → List Citizen × Rng
  | 0, rng => ([], rng)
  | n + 1, rng =>
    let c := Citizen.generate faction_id rng
    let cs := genCitizens faction_id n c.2
    (c.1 :: cs.1, cs.2)

/-- Generate n factions with database ids counting up from next_id, each
followed by its INITIAL_CITIZENS_PER_FACTION members, matching the
creation interleaving of SimulationEngine._create_new_world. -/
def genFactions : Nat → Nat → Rng → List Faction × List Citizen × Rng
  | 0, _, rng => ([], [], rng)
  | n + 1, next_id, rng =>
    let f := Faction.generate next_id rng
    let cs := genCitizens (some next_id) INITIAL_CITIZENS_PER_FACTION f.2
    let rest := genFactions n (next_id + 1) cs.2
    (f.1 :: rest.1, cs.1 ++ rest.2.1, rest.2.2)

namespace SimulationEngine

/-- SimulationEngine.__init__ plus initialize(fresh=True) on an empty
database, i.e. _create_new_world: day 0, a fresh era clock, 3 factions
of 8 citizens each and 5 unaffiliated citizens, no gods, zeroed
ascending counters. -/
def init (seed : Nat) : EngineState :=
  let rng := mkRandom seed
  let amp := AgeManager.new rng
  let gf := genFactions INITIAL_FACTIONS 1 amp.2
  let lon := genCitizens none UNAFFILIATED_CITIZENS gf.2.2
  { seed := seed
    rng := lon.2
    current_day := 0
    age_manager := amp.1
    citizens := gf.2.1 ++ lon.1
    factions := gf.1
    gods := []
    proto_god_days := fun _ => 0
    myths := [] }

/-- The event-application phase of SimulationEngine.tick: when an event
was generated, apply it to every citizen and create the day's myths;
otherwise leave the citizens untouched.  Returns (citizens, myths, rng). -/
def applyPhase (s : EngineState) (traits : AgeTraits) (day : Nat)
    (ev? : Option Event) (rng : Rng) : List Citizen × List Myth × Rng :=
  match ev? with
  | none => (s.citizens, [], rng)
  | some ev =>
    let cs := applyEventToCitizens s.factions traits ev s.citizens rng
    let ms := create_myths ev day s.factions cs.2
    (cs.1, ms.1, ms.2)

/-- SimulationEngine.tick: advance the day and the era clock, generate
an event with the (possibly new) age's rate, apply it and create myths
when present, process gods, persist, and assemble the TickResult. -/
def tick (s : EngineState) : EngineState × TickResult :=
  let day := s.current_day + 1
  let at3 := s.age_manager.tick s.rng
  let am := at3.1
  let age_transition := at3.2.1
  let traits := AGE_TRAITS am.current_age
  let ev2 := generate_event at3.2.2 am.current_age traits.event_rate
  let cm := applyPhase s traits day ev2.1 ev2.2
  let pg := process_gods cm.1 day s.gods s.proto_god_days cm.2.2
  let s' : EngineState :=
    { s with
      current_day := day
      age_manager := am
      rng := pg.2.2.2.2
      citizens := cm.1
      gods := pg.1
      proto_god_days := pg.2.1
      myths := s.myths ++ cm.2.1 }
  (s', ⟨day, am.current_age, ev2.1, age_transition, pg.2.2.1, pg.2.2.2.1, cm.2.1⟩)

/-- The engine state after n ticks from a fresh seed. -/
def run (seed : Nat) : Nat → EngineState
  | 0 => init seed
  | n + 1 => (tick (run seed n)).1

end SimulationEngine

/-- The observable projection of a TickResult the determinism claim
speaks about: era, event name, born-god domains, faded-god domains. -/
structure Obs where
  era : Age
  event_name : Option String
  born_domains : List Domain
  faded_domains : List Domain
deriving DecidableEq

/-- Project a TickResult to its observable part. -/
def observe (r : TickResult) : Obs :=
  ⟨r.age, r.event.map Event.name, r.born_gods.map God.domain, r.faded_gods.map God.domain⟩

/-- The observable trace of n consecutive ticks from a state. -/
def obsTrace (s : EngineState) : Nat → List Obs
  | 0 => []
  | n + 1 =>
    let t := SimulationEngine.tick s
    observe t.2 :: obsTrace t.1 n

/-- The narration/observer callback hook at the end of
SimulationEngine.tick, with the callback's possible exception made
explicit: all of the tick's state mutations and persistence have already
happened when the callback runs, and an exception from the callback
escapes tick() unhandled (the source wraps the call in no handler). -/
def tickWithNarrator {ε : Type} (narrator : TickResult → Except ε Unit)
    (s : EngineState) : EngineState × Except ε TickResult :=
  let t := SimulationEngine.tick s
  match narrator t.2 with
  | .ok _ => (t.1, .ok t.2)
  | .error e => (t.1, .error e)

/-- SimulationManager._broadcast_tick: every subscriber is invoked, each
in its own exception handler, so one failing subscriber cannot prevent
the others from being called; the failures are collected, not raised. -/
def broadcast_tick {ε : Type} (subscribers : List (TickResult → Except ε Unit))
    (r : TickResult) : List (Option ε) :=
  subscribers.map (fun cb =>
    match cb r with
    | .ok _ => none
    | .error e => some e)

/-! ## Spec-side definitions and claim vocabulary

The definitions below state the spec's concepts in the spec's own words,
to be compared with the source-derived definitions above. -/

/-- Spec: the arithmetic average of a list of values. -/
def specMean (xs : List ℚ) : ℚ := xs.sum / xs.length

/-- Spec: the population variance of a list of values. -/
def specPopVariance (xs : List ℚ) : ℚ :=
  (xs.map (fun b => ((b - specMean xs) ^ 2 : ℚ))).sum / xs.length

/-- Spec: the living population's belief values in a domain. -/
def livingBeliefs (d : Domain) (citizens : List Citizen) : List ℚ :=
  (citizens.filter (fun c => c.alive)).map (fun c => c.belief_vector d)

/-- Spec: every belief value and both emotion values lie in [0, 1]. -/
def CitizenInRange (c : Citizen) : Prop :=
  (∀ d : Domain, 0 ≤ c.belief_vector d ∧ c.belief_vector d ≤ 1) ∧
  (0 ≤ c.fear ∧ c.fear ≤ 1) ∧
  (0 ≤ c.gratitude ∧ c.gratitude ≤ 1)

/-- The identity of a citizen for membership claims: name, faction link
and aliveness (the fields no simulation operation may change). -/
def citizenIdentity (c : Citizen) : String × Option Nat × Bool :=
  (c.name, c.faction_id, c.alive)

/-- Spec: at most one living god per domain in a gods table. -/
def oneLivingPerDomain (gods : List God) : Prop :=
  ∀ d : Domain, gods.countP (godLivingIn d) ≤ 1

/-- Spec: a tick's population meets both birth thresholds for a domain. -/
def StrongFor (d : Domain) (citizens : List Citizen) : Prop :=
  BELIEF_THRESHOLD ≤ (aggregateDomain d citizens).average_belief ∧
  COHERENCE_THRESHOLD ≤ (aggregateDomain d citizens).coherence

/-- Spec: a tick's population is below the fade threshold for a domain. -/
def WeakFor (d : Domain) (citizens : List Citizen) : Prop :=
  (aggregateDomain d citizens).average_belief < FADE_THRESHOLD

/-- The state owned by the god system across process_gods calls: the
gods table, the ascending counters and the rng. -/
structure GSState where
  gods : List God
  proto : Domain → Nat
  rng : Rng

/-- The god-system state after one process_gods call on a (citizens,
current_day) input. -/
def gsNext (inp : List Citizen × Nat) (s : GSState) : GSState :=
  let r := process_gods inp.1 inp.2 s.gods s.proto s.rng
  ⟨r.1, r.2.1, r.2.2.2.2⟩

/-- The gods born by one process_gods call. -/
def gsBorn (inp : List Citizen × Nat) (s : GSState) : List God :=
  (process_gods inp.1 inp.2 s.gods s.proto s.rng).2.2.1

/-- The gods faded by one process_gods call. -/
def gsFaded (inp : List Citizen × Nat) (s : GSState) : List God :=
  (process_gods inp.1 inp.2 s.gods s.proto s.rng).2.2.2.1

/-! ## Concrete instances used by counterexamples and witnesses -/

/-- A citizen with no faction affiliation and zero beliefs. -/
def lonerCitizen : Citizen := ⟨"Ashan", none, (fun _ => 0), 0.2, 0.2, true⟩

/-- A concrete event on the river domain with no secondary domain
(the first river template at magnitude 1). -/
def riverEvent : Event :=
  ⟨"The Great Flooding", "Waters rise beyond their banks", Domain.river, none,
   0.4, -0.2, 0.3, 1⟩

/-- A concrete small engine state (no citizens, factions or gods). -/
def smallState : EngineState :=
  { seed := 0
    rng := ⟨1⟩
    current_day := 0
    age_manager := ⟨Age.emergence, 0, 30⟩
    citizens := []
    factions := []
    gods := []
    proto_god_days := fun _ => 0
    myths := [] }

/-- A one-citizen population whose river belief is uniformly 0.7 (mean
0.7, coherence 1). -/
def strongPopulation : List Citizen := [⟨"Brinel", none, (fun _ => 0.7), 0.2, 0.2, true⟩]

/-- A one-citizen population with zero beliefs (mean 0). -/
def weakPopulation : List Citizen := [⟨"Calis", none, (fun _ => 0), 0.2, 0.2, true⟩]

/-- A concrete living river god with zeroed streak counters. -/
def riverGod : God := ⟨"Aquaus", Domain.river, 0.7, 1, true, 0, none, 0, 0⟩

/-! ## Basic lemmas -/

theorem clamp01_nonneg (x : ℚ) : 0 ≤ max 0 (min 1 x) := le_max_left 0 _

theorem clamp01_le_one (x : ℚ) : max 0 (min 1 x) ≤ 1 :=
  max_le (by norm_num) (min_le_left 1 x)

theorem lcgNext_lt (x : Nat) : lcgNext x < 2147483648 :=
  Nat.mod_lt _ (by norm_num)

theorem random_bounds (r : Rng) : 0 ≤ (r.random).1 ∧ (r.random).1 ≤ 1 := by
  constructor
  · have : (0 : ℚ) ≤ (lcgNext r.state : ℚ) / 2147483648 := by positivity
    simpa [Rng.random, Rng.nextNat] using this
  · have h : (lcgNext r.state : ℚ) ≤ 2147483648 := by
      exact_mod_cast (lcgNext_lt r.state).le
    have : (lcgNext r.state : ℚ) / 2147483648 ≤ 1 := by
      rw [div_le_one (by norm_num)]; exact h
    simpa [Rng.random, Rng.nextNat] using this

theorem uniform_bounds (r : Rng) (a b : ℚ) (h : a ≤ b) :
    a ≤ (r.uniform a b).1 ∧ (r.uniform a b).1 ≤ b := by
  obtain ⟨h0, h1⟩ := random_bounds r
  have hba : 0 ≤ b - a := sub_nonneg.mpr h
  constructor
  · have : 0 ≤ (r.random).1 * (b - a) := mul_nonneg h0 hba
    simp only [Rng.uniform]
    linarith
  · have : (r.random).1 * (b - a) ≤ b - a := mul_le_of_le_one_left hba h1
    simp only [Rng.uniform]
    linarith

theorem randint_bounds (r : Rng) (a b : Nat) (h : a ≤ b) :
    a ≤ (r.randint a b).1 ∧ (r.randint a b).1 ≤ b := by
  have hm : (r.nextNat).1 % (b - a + 1) < b - a + 1 := Nat.mod_lt _ (by omega)
  simp only [Rng.randint]
  omega

/-! ## C7: era-clock restoration -/

/-- C7: reconstructing an era clock from a persisted (era, daysInEra)
pair yields a clock in that era with that day counter, whose duration is
max(daysInEra + 1, the era's minDuration). -/
theorem spec_c7 (age : Age) (dc : Nat) :
    (AgeManager.from_state age dc).current_age = age ∧
    (AgeManager.from_state age dc).day_counter = dc ∧
    (AgeManager.from_state age dc).age_duration = max (dc + 1) (AGE_TRAITS age).min_days :=
  ⟨rfl, rfl, rfl⟩

/-! ## C5: determinism -/

/-- C5: two kernels constructed with the same seed, initialized fresh and
run for the same number of ticks produce identical sequences of (era,
event name, born-god domains, faded-god domains).  The engine is a pure
function of its state and the state is a function of the seed alone, so
equal seeds give equal observable traces. -/
theorem spec_c5 (seed1 seed2 n : Nat) (h : seed1 = seed2) :
    obsTrace (SimulationEngine.init seed1) n = obsTrace (SimulationEngine.init seed2) n := by
  rw [h]

/-- Witness for C5 at seed 42 over 10 ticks. -/
theorem spec_c5_witness :
    obsTrace (SimulationEngine.init 42) 10 = obsTrace (SimulationEngine.init 42) 10 :=
  spec_c5 42 42 10 rfl

/-! ## C6: era-clock bounds -/

theorem age_traits_min_pos (a : Age) : 0 < (AGE_TRAITS a).min_days := by
  cases a <;> decide

theorem age_traits_min_le_max (a : Age) :
    (AGE_TRAITS a).min_days ≤ (AGE_TRAITS a).max_days := by
  cases a <;> decide

theorem inv_new (rng : Rng) : (AgeManager.new rng).1.Inv := by
  obtain ⟨h1, h2⟩ :=
    randint_bounds rng (AGE_TRAITS Age.emergence).min_days (AGE_TRAITS Age.emergence).max_days
      (age_traits_min_le_max Age.emergence)
  have hp := age_traits_min_pos Age.emergence
  exact ⟨by simp only [AgeManager.new]; omega,
         by simp only [AgeManager.new]; omega,
         by simp only [AgeManager.new]; omega⟩

theorem inv_from_state (age : Age) (dc : Nat) (h : dc < (AGE_TRAITS age).max_days) :
    (AgeManager.from_state age dc).Inv := by
  have hm := age_traits_min_le_max age
  refine ⟨?_, ?_, ?_⟩ <;> simp only [AgeManager.from_state] <;> omega

theorem inv_tick (m : AgeManager) (rng : Rng) (h : m.Inv) : (m.tick rng).1.Inv := by
  obtain ⟨hlt, hmin, hmax⟩ := h
  by_cases hc : m.age_duration ≤ m.day_counter + 1
  · have hm := age_traits_min_le_max m.current_age.next
    have hp := age_traits_min_pos m.current_age.next
    obtain ⟨h1, h2⟩ :=
      randint_bounds rng (AGE_TRAITS m.current_age.next).min_days
        (AGE_TRAITS m.current_age.next).max_days hm
    refine ⟨?_, ?_, ?_⟩ <;>
      simp only [AgeManager.tick, AgeManager.transition, if_pos hc] <;> omega
  · refine ⟨?_, ?_, ?_⟩ <;>
      simp only [AgeManager.tick, if_neg hc] <;> omega

theorem inv_run (n : Nat) (m : AgeManager) (rng : Rng) (h : m.Inv) :
    (m.run rng n).1.Inv := by
  induction n generalizing m rng with
  | zero => exact h
  | succ k ih =>
    simp only [AgeManager.run]
    exact ih _ _ (inv_tick m rng h)

/-- C6: for an era clock created at genesis, or restored from a persisted
(era, daysInEra) pair — i.e. one the clock itself saved, whose counter is
below its era's maxDuration, as the third conjunct shows every reachable
counter is — after any number of advance() calls the returned state has
0 ≤ daysInEra < eraDuration (the lower bound holds in ℕ) and eraDuration
within the current era's [minDuration, maxDuration] range. -/
theorem spec_c6 :
    (∀ (rng : Rng) (n : Nat), ((AgeManager.new rng).1.run (AgeManager.new rng).2 n).1.Inv) ∧
    (∀ (age : Age) (dc : Nat) (rng : Rng) (n : Nat),
      dc < (AGE_TRAITS age).max_days →
      ((AgeManager.from_state age dc).run rng n).1.Inv) ∧
    (∀ (rng : Rng) (n : Nat),
      ((AgeManager.new rng).1.run (AgeManager.new rng).2 n).1.day_counter <
        (AGE_TRAITS ((AgeManager.new rng).1.run (AgeManager.new rng).2 n).1.current_age).max_days) := by
  refine ⟨fun rng n => inv_run n _ _ (inv_new rng),
          fun age dc rng n h => inv_run n _ _ (inv_from_state age dc h),
          fun rng n => ?_⟩
  obtain ⟨h1, _, h3⟩ :=
    inv_run n (AgeManager.new rng).1 (AgeManager.new rng).2 (inv_new rng)
  omega

/-- Witness for C6: a restored clock (Emergence, day 5) advanced 3 days
satisfies the invariant; hypotheses discharged at concrete values. -/
theorem spec_c6_witness :
    (5 < (AGE_TRAITS Age.emergence).max_days) ∧
    ((AgeManager.from_state Age.emergence 5).run ⟨1⟩ 3).1.Inv :=
  ⟨by decide, spec_c6.2.1 Age.emergence 5 ⟨1⟩ 3 (by decide)⟩

/-! ## C9: belief aggregation -/

/-- C9: for an all-living population, the aggregation step computes mean
belief as the arithmetic average of the living citizens' belief values
in the domain, and coherence as max(0, 1 − 4 × population variance) of
those same values; for an empty population both are 0. -/
theorem spec_c9 (d : Domain) (cs : List Citizen) (hAlive : ∀ c ∈ cs, c.alive = true) :
    (cs ≠ [] →
      (aggregateDomain d cs).average_belief = specMean (livingBeliefs d cs) ∧
      (aggregateDomain d cs).coherence =
        max 0 (1 - 4 * specPopVariance (livingBeliefs d cs))) ∧
    (cs = [] →
      (aggregateDomain d cs).average_belief = 0 ∧ (aggregateDomain d cs).coherence = 0) := by
  have hfl : cs.filter (fun c => c.alive) = cs := by
    rw [List.filter_eq_self]
    intro a ha
    simpa using hAlive a ha
  have hlb : livingBeliefs d cs = cs.map (fun c => c.belief_vector d) := by
    rw [livingBeliefs, hfl]
  constructor
  · intro hne
    have hb : cs.map (fun c => c.belief_vector d) ≠ [] := by
      simpa using hne
    have hie : (cs.map (fun c => c.belief_vector d)).isEmpty = false := by
      simpa [List.isEmpty_iff] using hb
    constructor
    · simp only [aggregateDomain, hie, Bool.false_eq_true, if_false, hlb, specMean]
    · simp only [aggregateDomain, hie, Bool.false_eq_true, if_false, hlb, specMean,
        specPopVariance]
      rw [mul_comm]
  · intro he
    subst he
    simp [aggregateDomain]

/-- Witness for C9 on a concrete two-citizen population. -/
theorem spec_c9_witness :
    (aggregateDomain Domain.river strongPopulation).average_belief =
      specMean (livingBeliefs Domain.river strongPopulation) ∧
    (aggregateDomain Domain.river strongPopulation).coherence =
      max 0 (1 - 4 * specPopVariance (livingBeliefs Domain.river strongPopulation)) :=
  (spec_c9 Domain.river strongPopulation (by simp [strongPopulation])).1
    (by simp [strongPopulation])

/-! ## C4: faction bias of unaffiliated citizens -/

/-- C4 counterexample: for a concrete citizen with no faction, applying a
concrete event updates the primary-domain belief by beliefDelta × 1, not
by beliefDelta × 0.5 as the claim states — the 1.0 initialisation of
faction_bias in _apply_event is what applies, not get_bias's 0.5
default. -/
theorem spec_c4_counterexample :
    (applyEventToCitizen [] (AGE_TRAITS Age.emergence) riverEvent lonerCitizen
        ⟨1⟩).1.belief_vector Domain.river ≠
      lonerCitizen.belief_vector Domain.river +
        riverEvent.belief_impact * (AGE_TRAITS Age.emergence).belief_growth *
          (0.8 + (Rng.random ⟨1⟩).1 * 0.4) * 0.5 ∧
    (applyEventToCitizen [] (AGE_TRAITS Age.emergence) riverEvent lonerCitizen
        ⟨1⟩).1.belief_vector Domain.river =
      lonerCitizen.belief_vector Domain.river +
        riverEvent.belief_impact * (AGE_TRAITS Age.emergence).belief_growth *
          (0.8 + (Rng.random ⟨1⟩).1 * 0.4) * 1 := by
  constructor <;>
    norm_num [applyEventToCitizen, Citizen.update_belief, Citizen.update_emotion,
      resolve_faction_bias, lonerCitizen, riverEvent, Rng.random, Rng.nextNat, lcgNext,
      AGE_TRAITS, min_def, max_def]

/-- C4 as amended: for every citizen with no faction affiliation, the
bias resolves to 1.0 (not 0.5), so the unaffiliated citizen's
primary-domain belief update equals beliefDelta × 1 before clamping;
get_bias's 0.5 default only concerns affiliated citizens whose faction
doctrine lacks the domain. -/
theorem spec_c4_amended (factions : List Faction) (c : Citizen) (d : Domain)
    (h : c.faction_id = none) :
    resolve_faction_bias factions c d = 1 ∧
    ∀ (traits : AgeTraits) (ev : Event) (rng : Rng),
      ev.primary_domain = d → ev.secondary_domain = none →
      (applyEventToCitizen factions traits ev c rng).1.belief_vector d =
        max 0 (min 1 (c.belief_vector d +
          ev.belief_impact * traits.belief_growth * (0.8 + (rng.random).1 * 0.4) * 1)) := by
  have hb : resolve_faction_bias factions c d = 1 := by
    norm_num [resolve_faction_bias, h]
  refine ⟨hb, ?_⟩
  intro traits ev rng hp hs
  subst hp
  simp only [applyEventToCitizen, hs, hb, Citizen.update_emotion, Citizen.update_belief]
  simp

/-- Witness for the amended C4 at a concrete unaffiliated citizen. -/
theorem spec_c4_witness :
    resolve_faction_bias [] lonerCitizen Domain.river = 1 ∧
    (applyEventToCitizen [] (AGE_TRAITS Age.emergence) riverEvent lonerCitizen
        ⟨1⟩).1.belief_vector Domain.river =
      max 0 (min 1 (lonerCitizen.belief_vector Domain.river +
        riverEvent.belief_impact * (AGE_TRAITS Age.emergence).belief_growth *
          (0.8 + (Rng.random ⟨1⟩).1 * 0.4) * 1)) :=
  ⟨(spec_c4_amended [] lonerCitizen Domain.river rfl).1,
   (spec_c4_amended [] lonerCitizen Domain.river rfl).2
     (AGE_TRAITS Age.emergence) riverEvent ⟨1⟩ rfl rfl⟩

/-! ## C8: observer-callback isolation -/

/-- C8 counterexample: with a narrator callback that raises, tick() does
not complete — the exception escapes instead of the TickResult being
returned, because the engine wraps the narrator call in no handler.  (The
state half of the claim does hold; see the amended theorem.) -/
theorem spec_c8_counterexample :
    (tickWithNarrator (fun _ => Except.error ()) smallState).2 =
      Except.error () := rfl

/-- C8 as amended: a raising narrator callback cannot undo the tick —
the engine state after tick() is exactly the state of an undisturbed
tick, since all mutations and persistence happen before the callback —
but the callback's exception propagates out of tick() unhandled, so
tick() raises rather than returning the TickResult.  Per-subscriber
isolation exists only in SimulationManager._broadcast_tick, where every
subscriber is invoked under its own handler. -/
theorem spec_c8_amended :
    (∀ (ε : Type) (narrator : TickResult → Except ε Unit) (s : EngineState),
      (tickWithNarrator narrator s).1 = (SimulationEngine.tick s).1) ∧
    (∀ (ε : Type) (narrator : TickResult → Except ε Unit) (s : EngineState) (e : ε),
      narrator (SimulationEngine.tick s).2 = Except.error e →
      (tickWithNarrator narrator s).2 = Except.error e) ∧
    (∀ (ε : Type) (subscribers : List (TickResult → Except ε Unit)) (r : TickResult),
      (broadcast_tick subscribers r).length = subscribers.length) := by
  refine ⟨?_, ?_, ?_⟩
  · intro ε narrator s
    simp only [tickWithNarrator]
    cases narrator (SimulationEngine.tick s).2 <;> rfl
  · intro ε narrator s e h
    simp only [tickWithNarrator, h]
  · intro ε subs r
    simp [broadcast_tick]

/-- Witness for the amended C8: a concretely failing narrator on a
concrete state propagates its error out of the tick. -/
theorem spec_c8_witness :
    (tickWithNarrator (fun _ => Except.error 7) smallState).2 = Except.error 7 :=
  spec_c8_amended.2.1 Nat (fun _ => Except.error 7) smallState 7 rfl

/-! ## C3: belief/emotion clamp invariant -/

theorem update_belief_updated_bounds (c : Citizen) (d : Domain) (δ bias : ℚ) :
    0 ≤ (c.update_belief d δ bias).belief_vector d ∧
    (c.update_belief d δ bias).belief_vector d ≤ 1 := by
  simp only [Citizen.update_belief, if_pos rfl]
  exact ⟨clamp01_nonneg _, clamp01_le_one _⟩

theorem update_emotion_bounds (c : Citizen) (fδ gδ : ℚ) :
    (0 ≤ (c.update_emotion fδ gδ).fear ∧ (c.update_emotion fδ gδ).fear ≤ 1) ∧
    (0 ≤ (c.update_emotion fδ gδ).gratitude ∧ (c.update_emotion fδ gδ).gratitude ≤ 1) := by
  simp only [Citizen.update_emotion]
  exact ⟨⟨clamp01_nonneg _, clamp01_le_one _⟩, ⟨clamp01_nonneg _, clamp01_le_one _⟩⟩

theorem update_belief_range (c : Citizen) (hc : CitizenInRange c) (d : Domain)
    (δ bias : ℚ) : CitizenInRange (c.update_belief d δ bias) := by
  obtain ⟨hbv, hf, hg⟩ := hc
  refine ⟨fun d' => ?_, ?_, ?_⟩
  · by_cases h : d' = d
    · subst h
      exact update_belief_updated_bounds c d' δ bias
    · simpa [Citizen.update_belief, h] using hbv d'
  · simpa [Citizen.update_belief] using hf
  · simpa [Citizen.update_belief] using hg

theorem update_emotion_range (c : Citizen) (hc : CitizenInRange c) (fδ gδ : ℚ) :
    CitizenInRange (c.update_emotion fδ gδ) := by
  obtain ⟨hbv, _, _⟩ := hc
  obtain ⟨hf, hg⟩ := update_emotion_bounds c fδ gδ
  exact ⟨fun d' => by simpa [Citizen.update_emotion] using hbv d', hf, hg⟩

theorem applyEventToCitizen_range (factions : List Faction) (traits : AgeTraits)
    (ev : Event) (c : Citizen) (rng : Rng) (hc : CitizenInRange c) :
    CitizenInRange (applyEventToCitizen factions traits ev c rng).1 := by
  simp only [applyEventToCitizen]
  apply update_emotion_range
  cases hsd : ev.secondary_domain with
  | none => exact update_belief_range c hc _ _ _
  | some sd => exact update_belief_range _ (update_belief_range c hc _ _ _) _ _ _

theorem applyEventToCitizens_range (factions : List Faction) (traits : AgeTraits)
    (ev : Event) :
    ∀ (cs : List Citizen) (rng : Rng), (∀ c ∈ cs, CitizenInRange c) →
      ∀ c' ∈ (applyEventToCitizens factions traits ev cs rng).1, CitizenInRange c'
  | [], _, _ => by intro c' hc'; simp [applyEventToCitizens] at hc'
  | c :: cs, rng, h => by
    intro c' hc'
    simp only [applyEventToCitizens, List.mem_cons] at hc'
    rcases hc' with h1 | h2
    · subst h1
      exact applyEventToCitizen_range factions traits ev c rng (h c (by simp))
    · exact applyEventToCitizens_range factions traits ev cs _
        (fun a ha => h a (by simp [ha])) c' h2

theorem drawBeliefVector_range :
    ∀ (ds : List Domain) (rng : Rng) (d : Domain),
      0 ≤ (drawBeliefVector ds rng).1 d ∧ (drawBeliefVector ds rng).1 d ≤ 1
  | [], _, _ => by simp [drawBeliefVector]
  | e :: ds, rng, d => by
    simp only [drawBeliefVector]
    by_cases h : d = e
    · obtain ⟨h0, h1⟩ := uniform_bounds rng 0 0.3 (by norm_num)
      simp only [h, if_pos rfl]
      exact ⟨h0, h1.trans (by norm_num)⟩
    · simpa [h] using drawBeliefVector_range ds (rng.uniform 0 0.3).2 d

theorem generate_range (fid : Option Nat) (rng : Rng) :
    CitizenInRange (Citizen.generate fid rng).1 := by
  refine ⟨fun d => ?_, ?_, ?_⟩
  · simpa [Citizen.generate] using drawBeliefVector_range DOMAINS rng d
  · obtain ⟨h0, h1⟩ := uniform_bounds (generate_citizen_name (drawBeliefVector DOMAINS rng).2).2
      0.1 0.4 (by norm_num)
    exact ⟨by simpa [Citizen.generate] using le_trans (by norm_num) h0,
           by simpa [Citizen.generate] using h1.trans (by norm_num)⟩
  · obtain ⟨h0, h1⟩ := uniform_bounds
      (Rng.uniform (generate_citizen_name (drawBeliefVector DOMAINS rng).2).2 0.1 0.4).2
      0.1 0.4 (by norm_num)
    exact ⟨by simpa [Citizen.generate] using le_trans (by norm_num) h0,
           by simpa [Citizen.generate] using h1.trans (by norm_num)⟩

theorem genCitizens_range (fid : Option Nat) :
    ∀ (n : Nat) (rng : Rng), ∀ c ∈ (genCitizens fid n rng).1, CitizenInRange c
  | 0, _ => by intro c hc; simp [genCitizens] at hc
  | n + 1, rng => by
    intro c hc
    simp only [genCitizens, List.mem_cons] at hc
    rcases hc with h1 | h2
    · subst h1
      exact generate_range fid rng
    · exact genCitizens_range fid n _ c h2

theorem genFactions_range :
    ∀ (n next_id : Nat) (rng : Rng), ∀ c ∈ (genFactions n next_id rng).2.1, CitizenInRange c
  | 0, _, _ => by intro c hc; simp [genFactions] at hc
  | n + 1, next_id, rng => by
    intro c hc
    simp only [genFactions, List.mem_append] at hc
    rcases hc with h1 | h2
    · exact genCitizens_range (some next_id) INITIAL_CITIZENS_PER_FACTION _ c h1
    · exact genFactions_range n (next_id + 1) _ c h2

theorem init_range (seed : Nat) :
    ∀ c ∈ (SimulationEngine.init seed).citizens, CitizenInRange c := by
  intro c hc
  simp only [SimulationEngine.init, List.mem_append] at hc
  rcases hc with h1 | h2
  · exact genFactions_range INITIAL_FACTIONS 1 _ c h1
  · exact genCitizens_range none UNAFFILIATED_CITIZENS _ c h2

theorem applyPhase_range (s : EngineState) (traits : AgeTraits) (day : Nat)
    (ev? : Option Event) (rng : Rng) (h : ∀ c ∈ s.citizens, CitizenInRange c) :
    ∀ c ∈ (SimulationEngine.applyPhase s traits day ev? rng).1, CitizenInRange c := by
  cases ev? with
  | none => simpa [SimulationEngine.applyPhase] using h
  | some ev =>
    simp only [SimulationEngine.applyPhase]
    exact applyEventToCitizens_range s.factions traits ev s.citizens rng h

theorem tick_range (s : EngineState) (h : ∀ c ∈ s.citizens, CitizenInRange c) :
    ∀ c ∈ (SimulationEngine.tick s).1.citizens, CitizenInRange c := by
  simp only [SimulationEngine.tick]
  exact applyPhase_range s _ _ _ _ h

theorem run_range (seed : Nat) :
    ∀ n, ∀ c ∈ (SimulationEngine.run seed n).citizens, CitizenInRange c
  | 0 => init_range seed
  | n + 1 => tick_range (SimulationEngine.run seed n) (run_range seed n)

/-- C3: after any belief or emotion update on any citizen the updated
values are clamped into [0, 1] regardless of the deltas' sign or size,
updates preserve the in-range invariant, and hence every citizen of the
engine state after any number of ticks from genesis has every belief
value, fear and gratitude in [0, 1]. -/
theorem spec_c3 :
    (∀ (c : Citizen) (d : Domain) (δ bias : ℚ),
      0 ≤ (c.update_belief d δ bias).belief_vector d ∧
      (c.update_belief d δ bias).belief_vector d ≤ 1) ∧
    (∀ (c : Citizen) (fδ gδ : ℚ),
      (0 ≤ (c.update_emotion fδ gδ).fear ∧ (c.update_emotion fδ gδ).fear ≤ 1) ∧
      (0 ≤ (c.update_emotion fδ gδ).gratitude ∧ (c.update_emotion fδ gδ).gratitude ≤ 1)) ∧
    (∀ c : Citizen, CitizenInRange c →
      ∀ (d : Domain) (δ bias : ℚ), CitizenInRange (c.update_belief d δ bias)) ∧
    (∀ c : Citizen, CitizenInRange c →
      ∀ fδ gδ : ℚ, CitizenInRange (c.update_emotion fδ gδ)) ∧
    (∀ (seed n : Nat), ∀ c ∈ (SimulationEngine.run seed n).citizens, CitizenInRange c) :=
  ⟨update_belief_updated_bounds, update_emotion_bounds,
   update_belief_range, update_emotion_range,
   fun seed n => run_range seed n⟩

/-- Witness for C3: a concrete in-range citizen stays in range under a
belief update with a large negative delta. -/
theorem spec_c3_witness :
    CitizenInRange (⟨"Calis", none, (fun _ => 0), 0.2, 0.2, true⟩ : Citizen) ∧
    CitizenInRange
      (Citizen.update_belief ⟨"Calis", none, (fun _ => 0), 0.2, 0.2, true⟩
        Domain.river 5 (-3)) := by
  have h : CitizenInRange (⟨"Calis", none, (fun _ => 0), 0.2, 0.2, true⟩ : Citizen) :=
    ⟨fun d => by norm_num, by norm_num, by norm_num⟩
  exact ⟨h, spec_c3.2.2.1 _ h Domain.river 5 (-3)⟩

/-! ## C10: the citizen collection is preserved -/

theorem update_belief_identity (c : Citizen) (d : Domain) (δ bias : ℚ) :
    citizenIdentity (c.update_belief d δ bias) = citizenIdentity c := rfl

theorem update_emotion_identity (c : Citizen) (fδ gδ : ℚ) :
    citizenIdentity (c.update_emotion fδ gδ) = citizenIdentity c := rfl

theorem applyEventToCitizen_identity (factions : List Faction) (traits : AgeTraits)
    (ev : Event) (c : Citizen) (rng : Rng) :
    citizenIdentity (applyEventToCitizen factions traits ev c rng).1 = citizenIdentity c := by
  simp only [applyEventToCitizen]
  cases ev.secondary_domain <;> rfl

theorem applyEventToCitizens_identity (factions : List Faction) (traits : AgeTraits)
    (ev : Event) :
    ∀ (cs : List Citizen) (rng : Rng),
      (applyEventToCitizens factions traits ev cs rng).1.map citizenIdentity =
        cs.map citizenIdentity
  | [], _ => rfl
  | c :: cs, rng => by
    simp only [applyEventToCitizens, List.map_cons]
    rw [applyEventToCitizen_identity, applyEventToCitizens_identity factions traits ev cs]

theorem applyPhase_identity (s : EngineState) (traits : AgeTraits) (day : Nat)
    (ev? : Option Event) (rng : Rng) :
    (SimulationEngine.applyPhase s traits day ev? rng).1.map citizenIdentity =
      s.citizens.map citizenIdentity := by
  cases ev? with
  | none => rfl
  | some ev => exact applyEventToCitizens_identity s.factions traits ev s.citizens rng

theorem tick_identity (s : EngineState) :
    (SimulationEngine.tick s).1.citizens.map citizenIdentity =
      s.citizens.map citizenIdentity := by
  simp only [SimulationEngine.tick]
  exact applyPhase_identity s _ _ _ _

theorem run_identity (seed : Nat) :
    ∀ n, (SimulationEngine.run seed n).citizens.map citizenIdentity =
      (SimulationEngine.init seed).citizens.map citizenIdentity
  | 0 => rfl
  | n + 1 => by
    rw [SimulationEngine.run, tick_identity, run_identity seed n]

theorem genCitizens_length (fid : Option Nat) :
    ∀ (n : Nat) (rng : Rng), (genCitizens fid n rng).1.length = n
  | 0, _ => rfl
  | n + 1, rng => by
    simp [genCitizens, genCitizens_length fid n]

theorem genFactions_citizens_length :
    ∀ (n next_id : Nat) (rng : Rng),
      (genFactions n next_id rng).2.1.length = n * INITIAL_CITIZENS_PER_FACTION
  | 0, _, _ => rfl
  | n + 1, next_id, rng => by
    simp [genFactions, genCitizens_length, genFactions_citizens_length n]
    ring

theorem init_citizens_length (seed : Nat) :
    (SimulationEngine.init seed).citizens.length =
      INITIAL_FACTIONS * INITIAL_CITIZENS_PER_FACTION + UNAFFILIATED_CITIZENS := by
  simp [SimulationEngine.init, genFactions_citizens_length, genCitizens_length]

theorem genCitizens_alive (fid : Option Nat) :
    ∀ (n : Nat) (rng : Rng), ∀ c ∈ (genCitizens fid n rng).1, c.alive = true
  | 0, _ => by intro c hc; simp [genCitizens] at hc
  | n + 1, rng => by
    intro c hc
    simp only [genCitizens, List.mem_cons] at hc
    rcases hc with h1 | h2
    · subst h1; rfl
    · exact genCitizens_alive fid n _ c h2

theorem genFactions_alive :
    ∀ (n next_id : Nat) (rng : Rng), ∀ c ∈ (genFactions n next_id rng).2.1, c.alive = true
  | 0, _, _ => by intro c hc; simp [genFactions] at hc
  | n + 1, next_id, rng => by
    intro c hc
    simp only [genFactions, List.mem_append] at hc
    rcases hc with h1 | h2
    · exact genCitizens_alive (some next_id) INITIAL_CITIZENS_PER_FACTION _ c h1
    · exact genFactions_alive n (next_id + 1) _ c h2

theorem init_alive (seed : Nat) :
    ∀ c ∈ (SimulationEngine.init seed).citizens, c.alive = true := by
  intro c hc
  simp only [SimulationEngine.init, List.mem_append] at hc
  rcases hc with h1 | h2
  · exact genFactions_alive INITIAL_FACTIONS 1 _ c h1
  · exact genCitizens_alive none UNAFFILIATED_CITIZENS _ c h2

/-- C10: no operation of the simulation core kills or removes a citizen:
after any number of ticks from genesis the citizen collection still has
3 × 8 + 5 = 29 members, all alive, with the genesis identities (name,
faction link, aliveness) unchanged in order — so aggregation over the
living population is aggregation over all citizens. -/
theorem spec_c10 (seed n : Nat) :
    (SimulationEngine.run seed n).citizens.length =
      INITIAL_FACTIONS * INITIAL_CITIZENS_PER_FACTION + UNAFFILIATED_CITIZENS ∧
    (SimulationEngine.run seed n).citizens.length = 29 ∧
    (SimulationEngine.run seed n).citizens.all (fun c => c.alive) = true ∧
    (SimulationEngine.run seed n).citizens.map citizenIdentity =
      (SimulationEngine.init seed).citizens.map citizenIdentity := by
  have hid := run_identity seed n
  have hlen : (SimulationEngine.run seed n).citizens.length =
      (SimulationEngine.init seed).citizens.length := by
    have := congrArg List.length hid
    simpa using this
  have hl29 : (SimulationEngine.run seed n).citizens.length =
      INITIAL_FACTIONS * INITIAL_CITIZENS_PER_FACTION + UNAFFILIATED_CITIZENS := by
    rw [hlen, init_citizens_length]
  refine ⟨hl29, by rw [hl29]; rfl, ?_, hid⟩
  rw [List.all_eq_true]
  intro c hc
  have h1 : citizenIdentity c ∈
      (SimulationEngine.init seed).citizens.map citizenIdentity := by
    rw [← hid]
    exact List.mem_map_of_mem citizenIdentity hc
  obtain ⟨c0, hc0, he⟩ := List.mem_map.mp h1
  have h2 : c0.alive = c.alive :=
    congrArg (fun t : String × Option Nat × Bool => t.2.2) he
  have h3 := init_alive seed c0 hc0
  simp only [← h2, h3]

/-! ## C1: at most one living god per domain -/

theorem fadeStep_domain (aggs : Domain → BeliefAggregation) (day : Nat) (g : God) :
    (fadeStep aggs day g).domain = g.domain := by
  unfold fadeStep God.update_strength God.fade
  by_cases h1 : (aggs g.domain).average_belief < FADE_THRESHOLD
  · simp only [if_pos h1]
    by_cases h2 : CONSECUTIVE_DAYS_FADE ≤ g.consecutive_weak_days + 1
    · simp [h2]
    · simp [h2]
  · simp [h1]

theorem godLivingIn_fadeStep (aggs : Domain → BeliefAggregation) (day : Nat)
    (d : Domain) (g : God) (ha : g.alive = true)
    (h : godLivingIn d (fadeStep aggs day g) = true) : godLivingIn d g = true := by
  have hd := fadeStep_domain aggs day g
  simp only [godLivingIn, Bool.and_eq_true, decide_eq_true_eq] at h ⊢
  exact ⟨ha, hd ▸ h.2⟩

theorem updateExisting_countP_le (aggs : Domain → BeliefAggregation) (day : Nat)
    (d : Domain) :
    ∀ gods : List God,
      (updateExisting aggs day gods).countP (godLivingIn d) ≤
        gods.countP (godLivingIn d)
  | [] => Nat.le_refl 0
  | g :: gods => by
    have ih := updateExisting_countP_le aggs day d gods
    simp only [updateExisting, List.map_cons, List.countP_cons] at ih ⊢
    by_cases ha : g.alive = true
    · rw [if_pos ha]
      by_cases hp : godLivingIn d (fadeStep aggs day g) = true
      · have hq := godLivingIn_fadeStep aggs day d g ha hp
        rw [if_pos hp, if_pos hq]
        omega
      · rw [if_neg hp]
        split_ifs <;> omega
    · rw [if_neg ha]
      split_ifs <;> omega

theorem livingGodsIn_eq_nil_iff (gods : List God) (d : Domain) :
    livingGodsIn gods d = [] ↔ gods.countP (godLivingIn d) = 0 := by
  rw [livingGodsIn, List.filter_eq_nil_iff, List.countP_eq_zero]

theorem birthLoop_born_sound (aggs : Domain → BeliefAggregation) (living : Domain → Bool)
    (day : Nat) :
    ∀ (ds : List Domain) (proto : Domain → Nat) (rng : Rng),
      ∀ g ∈ (birthLoop aggs living day ds proto rng).2.1,
        g.domain ∈ ds ∧ living g.domain = false ∧ g.alive = true ∧
        g.birth_day = day ∧ g.death_day = none ∧ g.consecutive_weak_days = 0
  | [], proto, rng => by
    intro g hg
    simp [birthLoop] at hg
  | e :: ds, proto, rng => by
    intro g hg
    simp only [birthLoop] at hg
    by_cases h1 : living e = true
    · rw [if_pos h1] at hg
      have h := birthLoop_born_sound aggs living day ds _ _ g hg
      exact ⟨List.mem_cons_of_mem e h.1, h.2⟩
    · rw [if_neg h1] at hg
      by_cases h2 : BELIEF_THRESHOLD ≤ (aggs e).average_belief ∧
          COHERENCE_THRESHOLD ≤ (aggs e).coherence
      · rw [if_pos h2] at hg
        by_cases h3 : CONSECUTIVE_DAYS_BIRTH ≤ proto e + 1
        · rw [if_pos h3] at hg
          dsimp only at hg
          rcases List.mem_cons.mp hg with rfl | hg'
          · exact ⟨List.mem_cons_self e ds, Bool.eq_false_iff.mpr h1, rfl, rfl, rfl, rfl⟩
          · have h := birthLoop_born_sound aggs living day ds _ _ g hg'
            exact ⟨List.mem_cons_of_mem e h.1, h.2⟩
        · rw [if_neg h3] at hg
          have h := birthLoop_born_sound aggs living day ds _ _ g hg
          exact ⟨List.mem_cons_of_mem e h.1, h.2⟩
      · rw [if_neg h2] at hg
        have h := birthLoop_born_sound aggs living day ds _ _ g hg
        exact ⟨List.mem_cons_of_mem e h.1, h.2⟩

theorem birthLoop_born_countP_zero_of_not_mem (aggs : Domain → BeliefAggregation)
    (living : Domain → Bool) (day : Nat) (ds : List Domain) (proto : Domain → Nat)
    (rng : Rng) (d : Domain) (h : d ∉ ds) :
    (birthLoop aggs living day ds proto rng).2.1.countP (godLivingIn d) = 0 := by
  rw [List.countP_eq_zero]
  intro g hg hp
  obtain ⟨hmem, _, _, _, _, _⟩ := birthLoop_born_sound aggs living day ds proto rng g hg
  have hp' : g.alive = true ∧ g.domain = d := by
    simpa [godLivingIn, Bool.and_eq_true, decide_eq_true_eq] using hp
  exact h (hp'.2 ▸ hmem)

theorem birthLoop_born_countP_zero_of_living (aggs : Domain → BeliefAggregation)
    (living : Domain → Bool) (day : Nat) (ds : List Domain) (proto : Domain → Nat)
    (rng : Rng) (d : Domain) (h : living d = true) :
    (birthLoop aggs living day ds proto rng).2.1.countP (godLivingIn d) = 0 := by
  rw [List.countP_eq_zero]
  intro g hg hp
  obtain ⟨_, hliv, _, _, _, _⟩ := birthLoop_born_sound aggs living day ds proto rng g hg
  have hp' : g.alive = true ∧ g.domain = d := by
    simpa [godLivingIn, Bool.and_eq_true, decide_eq_true_eq] using hp
  rw [hp'.2, h] at hliv
  exact Bool.true_eq_false.mp hliv

theorem birthLoop_born_countP_le_one (aggs : Domain → BeliefAggregation)
    (living : Domain → Bool) (day : Nat) :
    ∀ (ds : List Domain) (proto : Domain → Nat) (rng : Rng) (d : Domain), ds.Nodup →
      (birthLoop aggs living day ds proto rng).2.1.countP (godLivingIn d) ≤ 1
  | [], proto, rng, d, _ => by simp [birthLoop]
  | e :: ds, proto, rng, d, hnd => by
    simp only [birthLoop]
    by_cases h1 : living e = true
    · rw [if_pos h1]
      exact birthLoop_born_countP_le_one aggs living day ds _ _ d (List.Nodup.of_cons hnd)
    · rw [if_neg h1]
      by_cases h2 : BELIEF_THRESHOLD ≤ (aggs e).average_belief ∧
          COHERENCE_THRESHOLD ≤ (aggs e).coherence
      · rw [if_pos h2]
        by_cases h3 : CONSECUTIVE_DAYS_BIRTH ≤ proto e + 1
        · rw [if_pos h3]
          dsimp only
          rw [List.countP_cons]
          by_cases hde : d = e
          · subst hde
            have hz := birthLoop_born_countP_zero_of_not_mem aggs living day ds
              (fun e' => if e' = d then 0 else if e' = d then proto d + 1 else proto e')
              (God.birth d (aggs d).average_belief (aggs d).coherence day rng).2
              d (List.nodup_cons.mp hnd).1
            rw [hz]
            split_ifs <;> omega
          · have hfg : godLivingIn d
                (God.birth e (aggs e).average_belief (aggs e).coherence day rng).1
                = false := by
              simp only [godLivingIn, God.birth, Bool.and_eq_false_iff]
              refine Or.inr ?_
              simp only [decide_eq_false_iff_not]
              exact fun h => hde h.symm
            rw [hfg]
            simp only [Bool.false_eq_true, if_false, Nat.add_zero]
            exact birthLoop_born_countP_le_one aggs living day ds _ _ d
              (List.Nodup.of_cons hnd)
        · rw [if_neg h3]
          exact birthLoop_born_countP_le_one aggs living day ds _ _ d
            (List.Nodup.of_cons hnd)
      · rw [if_neg h2]
        exact birthLoop_born_countP_le_one aggs living day ds _ _ d
          (List.Nodup.of_cons hnd)

theorem process_gods_oneLiving (cs : List Citizen) (day : Nat) (gods : List God)
    (proto : Domain → Nat) (rng : Rng) (h : oneLivingPerDomain gods) :
    oneLivingPerDomain (process_gods cs day gods proto rng).1 := by
  intro d
  have key : (process_gods cs day gods proto rng).1 =
      updateExisting (aggregate_beliefs cs) day gods ++
      (birthLoop (aggregate_beliefs cs)
        (fun e =>
          !(livingGodsIn (updateExisting (aggregate_beliefs cs) day gods) e).isEmpty)
        day DOMAINS proto rng).2.1 := rfl
  rw [key, List.countP_append]
  by_cases hl :
      (livingGodsIn (updateExisting (aggregate_beliefs cs) day gods) d).isEmpty = true
  · have h0 : (updateExisting (aggregate_beliefs cs) day gods).countP (godLivingIn d) = 0 := by
      have he : livingGodsIn (updateExisting (aggregate_beliefs cs) day gods) d = [] := by
        simpa [List.isEmpty_iff] using hl
      exact (livingGodsIn_eq_nil_iff _ _).mp he
    have h1 := birthLoop_born_countP_le_one (aggregate_beliefs cs)
      (fun e => !(livingGodsIn (updateExisting (aggregate_beliefs cs) day gods) e).isEmpty)
      day DOMAINS proto rng d (by decide)
    omega
  · have hlv : (fun e =>
        !(livingGodsIn (updateExisting (aggregate_beliefs cs) day gods) e).isEmpty) d
        = true := by
      simp only [Bool.not_eq_true] at hl
      simp [hl]
    have h0 := birthLoop_born_countP_zero_of_living (aggregate_beliefs cs)
      (fun e => !(livingGodsIn (updateExisting (aggregate_beliefs cs) day gods) e).isEmpty)
      day DOMAINS proto rng d hlv
    have h1 := updateExisting_countP_le (aggregate_beliefs cs) day d gods
    have h2 := h d
    omega

theorem tick_oneLiving (s : EngineState) (h : oneLivingPerDomain s.gods) :
    oneLivingPerDomain (SimulationEngine.tick s).1.gods := by
  simp only [SimulationEngine.tick]
  exact process_gods_oneLiving _ _ _ _ _ h

theorem run_oneLiving (seed : Nat) :
    ∀ n, oneLivingPerDomain (SimulationEngine.run seed n).gods
  | 0 => by
    intro d
    simp [SimulationEngine.run, SimulationEngine.init]
  | n + 1 => tick_oneLiving _ (run_oneLiving seed n)

/-- C1: after initialization and any sequence of tick() calls, no two
simultaneously-alive gods share a domain — the gods table holds at most
one living god per domain — and the birth loop only ever births into
domains with no currently-living god (every born god's domain has an
empty living-god set after the fade pass). -/
theorem spec_c1 :
    (∀ seed n : Nat, oneLivingPerDomain (SimulationEngine.run seed n).gods) ∧
    (∀ (cs : List Citizen) (day : Nat) (gods : List God) (proto : Domain → Nat)
        (rng : Rng),
      ((process_gods cs day gods proto rng).2.2.1.all
        (fun g =>
          (livingGodsIn (updateExisting (aggregate_beliefs cs) day gods)
            g.domain).isEmpty)) = true) := by
  constructor
  · exact fun seed n => run_oneLiving seed n
  · intro cs day gods proto rng
    rw [List.all_eq_true]
    intro g hg
    have hg' : g ∈ (birthLoop (aggregate_beliefs cs)
        (fun e =>
          !(livingGodsIn (updateExisting (aggregate_beliefs cs) day gods) e).isEmpty)
        day DOMAINS proto rng).2.1 := hg
    obtain ⟨_, hliv, _, _, _, _⟩ := birthLoop_born_sound _ _ day DOMAINS proto rng g hg'
    simpa using hliv

/-! ## C2: birth and fade streak behaviour -/

theorem godLivingIn_iff (d : Domain) (g : God) :
    godLivingIn d g = true ↔ g.alive = true ∧ g.domain = d := by
  simp [godLivingIn, Bool.and_eq_true, decide_eq_true_eq]

theorem fadeStep_weak_survive (aggs : Domain → BeliefAggregation) (day : Nat) (g : God)
    (hw : (aggs g.domain).average_belief < FADE_THRESHOLD)
    (hk : g.consecutive_weak_days + 1 < CONSECUTIVE_DAYS_FADE) :
    (fadeStep aggs day g).alive = g.alive ∧
    (fadeStep aggs day g).consecutive_weak_days = g.consecutive_weak_days + 1 := by
  unfold fadeStep God.update_strength God.fade
  rw [if_pos hw, if_neg (by omega : ¬CONSECUTIVE_DAYS_FADE ≤ g.consecutive_weak_days + 1)]
  exact ⟨rfl, rfl⟩

theorem fadeStep_weak_die (aggs : Domain → BeliefAggregation) (day : Nat) (g : God)
    (hw : (aggs g.domain).average_belief < FADE_THRESHOLD)
    (hk : CONSECUTIVE_DAYS_FADE ≤ g.consecutive_weak_days + 1) :
    (fadeStep aggs day g).alive = false ∧
    (fadeStep aggs day g).death_day = some day := by
  unfold fadeStep God.update_strength God.fade
  rw [if_pos hw, if_pos (by omega : CONSECUTIVE_DAYS_FADE ≤ g.consecutive_weak_days + 1)]
  exact ⟨rfl, rfl⟩

theorem fadedOf_no_domain (aggs : Domain → BeliefAggregation) (day : Nat) (d : Domain)
    (gods : List God) (h : livingGodsIn gods d = []) :
    ∀ x ∈ fadedOf aggs day gods, x.domain ≠ d := by
  intro x hx
  rw [fadedOf, List.mem_filterMap] at hx
  obtain ⟨g, hg, hfg⟩ := hx
  by_cases ha : g.alive = true
  · rw [if_pos ha] at hfg
    by_cases hs : (fadeStep aggs day g).alive = true
    · rw [if_pos hs] at hfg
      exact absurd hfg (by simp)
    · rw [if_neg hs] at hfg
      have hx' : x = fadeStep aggs day g := by
        simpa using hfg.symm
      subst hx'
      rw [fadeStep_domain]
      intro hd
      have : g ∈ livingGodsIn gods d :=
        List.mem_filter.mpr ⟨hg, (godLivingIn_iff d g).mpr ⟨ha, hd⟩⟩
      rw [h] at this
      exact absurd this (List.not_mem_nil g)
  · rw [if_neg ha] at hfg
    exact absurd hfg (by simp)

theorem updateExisting_living_nil (aggs : Domain → BeliefAggregation) (day : Nat)
    (d : Domain) (gods : List God) (h : livingGodsIn gods d = []) :
    livingGodsIn (updateExisting aggs day gods) d = [] := by
  rw [livingGodsIn_eq_nil_iff] at h ⊢
  have := updateExisting_countP_le aggs day d gods
  omega

theorem updateExisting_living_single (aggs : Domain → BeliefAggregation) (day : Nat)
    (d : Domain) :
    ∀ (gods : List God) (g0 : God), livingGodsIn gods d = [g0] →
      (aggs d).average_belief < FADE_THRESHOLD →
      g0.consecutive_weak_days + 1 < CONSECUTIVE_DAYS_FADE →
      livingGodsIn (updateExisting aggs day gods) d = [fadeStep aggs day g0] ∧
      (∀ x ∈ fadedOf aggs day gods, x.domain ≠ d)
  | [], g0, h, _, _ => absurd h (by simp [livingGodsIn])
  | g :: gods, g0, h, hw, hk => by
    rw [livingGodsIn, List.filter_cons] at h
    by_cases hp : godLivingIn d g = true
    · rw [if_pos hp] at h
      obtain ⟨rfl, htail⟩ : g = g0 ∧ gods.filter (godLivingIn d) = [] := by
        constructor
        · exact (List.cons_eq_cons.mp h).1
        · exact (List.cons_eq_cons.mp h).2
      obtain ⟨hal, hdom⟩ := (godLivingIn_iff d g).mp hp
      have hw' : (aggs g.domain).average_belief < FADE_THRESHOLD := by rwa [hdom]
      obtain ⟨hsal, _⟩ := fadeStep_weak_survive aggs day g hw' hk
      constructor
      · rw [updateExisting, List.map_cons, livingGodsIn, List.filter_cons, if_pos hal,
          if_pos (by
            rw [godLivingIn_iff]
            exact ⟨by rw [hsal, hal], by rw [fadeStep_domain, hdom]⟩)]
        have hrest := updateExisting_living_nil aggs day d gods htail
        rw [updateExisting, livingGodsIn] at hrest
        rw [hrest]
      · intro x hx
        rw [fadedOf, List.filterMap_cons, if_pos hal, if_pos (by rw [hsal, hal])] at hx
        exact fadedOf_no_domain aggs day d gods htail x hx
    · rw [if_neg hp] at h
      have ih := updateExisting_living_single aggs day d gods g0 h hw hk
      have hupd : godLivingIn d (if g.alive = true then fadeStep aggs day g else g)
          = false := by
        by_cases ha : g.alive = true
        · rw [if_pos ha]
          by_contra hc
          rw [Bool.not_eq_false] at hc
          exact hp (godLivingIn_fadeStep aggs day d g ha hc)
        · rw [if_neg ha]
          exact Bool.eq_false_iff.mpr hp
      constructor
      · rw [updateExisting, List.map_cons, livingGodsIn, List.filter_cons, if_neg
          (by rw [hupd]; simp)]
        rw [updateExisting, livingGodsIn] at ih
        exact ih.1
      · intro x hx
        rw [fadedOf, List.filterMap_cons] at hx
        by_cases ha : g.alive = true
        · rw [if_pos ha] at hx
          by_cases hs : (fadeStep aggs day g).alive = true
          · rw [if_pos hs] at hx
            exact ih.2 x hx
          · rw [if_neg hs] at hx
            rcases List.mem_cons.mp hx with rfl | hx'
            · rw [fadeStep_domain]
              intro hd
              exact absurd ((godLivingIn_iff d g).mpr ⟨ha, hd⟩) hp
            · exact ih.2 x hx'
        · rw [if_neg ha] at hx
          exact ih.2 x hx

theorem updateExisting_living_single_fade (aggs : Domain → BeliefAggregation) (day : Nat)
    (d : Domain) :
    ∀ (gods : List God) (g0 : God), livingGodsIn gods d = [g0] →
      (aggs d).average_belief < FADE_THRESHOLD →
      CONSECUTIVE_DAYS_FADE ≤ g0.consecutive_weak_days + 1 →
      livingGodsIn (updateExisting aggs day gods) d = [] ∧
      (∃ x ∈ fadedOf aggs day gods, x.domain = d ∧ x.alive = false ∧
        x.death_day = some day)
  | [], g0, h, _, _ => absurd h (by simp [livingGodsIn])
  | g :: gods, g0, h, hw, hk => by
    rw [livingGodsIn, List.filter_cons] at h
    by_cases hp : godLivingIn d g = true
    · rw [if_pos hp] at h
      obtain ⟨rfl, htail⟩ : g = g0 ∧ gods.filter (godLivingIn d) = [] := by
        exact ⟨(List.cons_eq_cons.mp h).1, (List.cons_eq_cons.mp h).2⟩
      obtain ⟨hal, hdom⟩ := (godLivingIn_iff d g).mp hp
      have hw' : (aggs g.domain).average_belief < FADE_THRESHOLD := by rwa [hdom]
      obtain ⟨hsal, hdd⟩ := fadeStep_weak_die aggs day g hw' hk
      constructor
      · rw [updateExisting, List.map_cons, livingGodsIn, List.filter_cons, if_pos hal,
          if_neg (by rw [godLivingIn_iff]; rintro ⟨hc, -⟩; rw [hsal] at hc; exact absurd hc (by simp))]
        have hrest := updateExisting_living_nil aggs day d gods htail
        rw [updateExisting, livingGodsIn] at hrest
        exact hrest
      · refine ⟨fadeStep aggs day g, ?_, by rw [fadeStep_domain, hdom], hsal, hdd⟩
        rw [fadedOf, List.filterMap_cons, if_pos hal, if_neg (by rw [hsal]; simp)]
        exact List.mem_cons_self _ _
    · rw [if_neg hp] at h
      have ih := updateExisting_living_single_fade aggs day d gods g0 h hw hk
      have hupd : godLivingIn d (if g.alive = true then fadeStep aggs day g else g)
          = false := by
        by_cases ha : g.alive = true
        · rw [if_pos ha]
          by_contra hc
          rw [Bool.not_eq_false] at hc
          exact hp (godLivingIn_fadeStep aggs day d g ha hc)
        · rw [if_neg ha]
          exact Bool.eq_false_iff.mpr hp
      constructor
      · rw [updateExisting, List.map_cons, livingGodsIn, List.filter_cons,
          if_neg (by rw [hupd]; simp)]
        rw [updateExisting, livingGodsIn] at ih
        exact ih.1
      · obtain ⟨x, hx, hxd⟩ := ih.2
        refine ⟨x, ?_, hxd⟩
        rw [fadedOf, List.filterMap_cons]
        by_cases ha : g.alive = true
        · rw [if_pos ha]
          by_cases hs : (fadeStep aggs day g).alive = true
          · rw [if_pos hs]
            exact hx
          · rw [if_neg hs]
            exact List.mem_cons_of_mem _ hx
        · rw [if_neg ha]
          exact hx

theorem birthLoop_proto_not_mem (aggs : Domain → BeliefAggregation)
    (living : Domain → Bool) (day : Nat) :
    ∀ (ds : List Domain) (proto : Domain → Nat) (rng : Rng) (d : Domain), d ∉ ds →
      (birthLoop aggs living day ds proto rng).1 d = proto d
  | [], proto, rng, d, _ => rfl
  | e :: ds, proto, rng, d, h => by
    have hne : d ≠ e := fun hc => h (hc ▸ List.mem_cons_self e ds)
    have hd : d ∉ ds := fun hc => h (List.mem_cons_of_mem e hc)
    simp only [birthLoop]
    by_cases h1 : living e = true
    · rw [if_pos h1, birthLoop_proto_not_mem aggs living day ds _ _ d hd]
      simp [hne]
    · rw [if_neg h1]
      by_cases h2 : BELIEF_THRESHOLD ≤ (aggs e).average_belief ∧
          COHERENCE_THRESHOLD ≤ (aggs e).coherence
      · rw [if_pos h2]
        by_cases h3 : CONSECUTIVE_DAYS_BIRTH ≤ proto e + 1
        · rw [if_pos h3]
          dsimp only
          rw [birthLoop_proto_not_mem aggs living day ds _ _ d hd]
          simp [hne]
        · rw [if_neg h3]
          rw [birthLoop_proto_not_mem aggs living day ds _ _ d hd]
          simp [hne]
      · rw [if_neg h2]
        rw [birthLoop_proto_not_mem aggs living day ds _ _ d hd]
        simp [hne]

theorem birthLoop_strong_progress (aggs : Domain → BeliefAggregation)
    (living : Domain → Bool) (day : Nat) (d : Domain) (hliv : living d = false)
    (hs1 : BELIEF_THRESHOLD ≤ (aggs d).average_belief)
    (hs2 : COHERENCE_THRESHOLD ≤ (aggs d).coherence) :
    ∀ (ds : List Domain) (proto : Domain → Nat) (rng : Rng), d ∈ ds → ds.Nodup →
      ((proto d + 1 < CONSECUTIVE_DAYS_BIRTH →
        (birthLoop aggs living day ds proto rng).1 d = proto d + 1 ∧
        ∀ g ∈ (birthLoop aggs living day ds proto rng).2.1, g.domain ≠ d) ∧
       (CONSECUTIVE_DAYS_BIRTH ≤ proto d + 1 →
        (birthLoop aggs living day ds proto rng).1 d = 0 ∧
        ∃ g ∈ (birthLoop aggs living day ds proto rng).2.1,
          g.domain = d ∧ g.alive = true ∧ g.birth_day = day ∧ g.death_day = none))
  | [], proto, rng, hmem, _ => absurd hmem (List.not_mem_nil d)
  | e :: ds, proto, rng, hmem, hnd => by
    by_cases hde : d = e
    · subst hde
      have hdni : d ∉ ds := (List.nodup_cons.mp hnd).1
      simp only [birthLoop]
      rw [if_neg (by rw [hliv]; simp), if_pos ⟨hs1, hs2⟩]
      constructor
      · intro hk
        rw [if_neg (by omega : ¬CONSECUTIVE_DAYS_BIRTH ≤ proto d + 1)]
        constructor
        · rw [birthLoop_proto_not_mem aggs living day ds _ _ d hdni]
          simp
        · intro g hg hgd
          have hsound := birthLoop_born_sound aggs living day ds _ _ g hg
          exact hdni (hgd ▸ hsound.1)
      · intro hk
        rw [if_pos hk]
        dsimp only
        constructor
        · rw [birthLoop_proto_not_mem aggs living day ds _ _ d hdni]
          simp
        · exact ⟨_, List.mem_cons_self _ _, rfl, rfl, rfl, rfl⟩
    · have hdm : d ∈ ds := (List.mem_cons.mp hmem).resolve_left hde
      have hnd' : ds.Nodup := List.Nodup.of_cons hnd
      simp only [birthLoop]
      by_cases h1 : living e = true
      · rw [if_pos h1]
        have ih := birthLoop_strong_progress aggs living day d hliv hs1 hs2 ds
          (fun e' => if e' = e then 0 else proto e') rng hdm hnd'
        simp only [if_neg hde] at ih
        exact ih
      · rw [if_neg h1]
        by_cases h2 : BELIEF_THRESHOLD ≤ (aggs e).average_belief ∧
            COHERENCE_THRESHOLD ≤ (aggs e).coherence
        · rw [if_pos h2]
          by_cases h3 : CONSECUTIVE_DAYS_BIRTH ≤ proto e + 1
          · rw [if_pos h3]
            dsimp only
            have ih := birthLoop_strong_progress aggs living day d hliv hs1 hs2 ds
              (fun e' => if e' = e then 0 else if e' = e then proto e + 1 else proto e')
              (God.birth e (aggs e).average_belief (aggs e).coherence day rng).2 hdm hnd'
            simp only [if_neg hde] at ih
            refine ⟨fun hk => ?_, fun hk => ?_⟩
            · obtain ⟨hp, hb⟩ := ih.1 hk
              refine ⟨hp, fun g hg => ?_⟩
              rcases List.mem_cons.mp hg with rfl | hg'
              · intro hgd
                exact hde (Eq.symm (by simpa [God.birth] using hgd))
              · exact hb g hg'
            · obtain ⟨hp, g, hg, hgp⟩ := ih.2 hk
              exact ⟨hp, g, List.mem_cons_of_mem _ hg, hgp⟩
          · rw [if_neg h3]
            have ih := birthLoop_strong_progress aggs living day d hliv hs1 hs2 ds
              (fun e' => if e' = e then proto e + 1 else proto e') rng hdm hnd'
            simp only [if_neg hde] at ih
            exact ih
        · rw [if_neg h2]
          have ih := birthLoop_strong_progress aggs living day d hliv hs1 hs2 ds
            (fun e' => if e' = e then 0 else proto e') rng hdm hnd'
          simp only [if_neg hde] at ih
          exact ih

theorem domain_mem_DOMAINS (d : Domain) : d ∈ DOMAINS := by
  cases d <;> simp [DOMAINS]

theorem gs_birth_step (cs : List Citizen) (t : Nat) (s : GSState) (d : Domain)
    (hS : StrongFor d cs) (hempty : livingGodsIn s.gods d = [])
    (hk : s.proto d + 1 < CONSECUTIVE_DAYS_BIRTH) :
    livingGodsIn (gsNext (cs, t) s).gods d = [] ∧
    (gsNext (cs, t) s).proto d = s.proto d + 1 ∧
    (∀ g ∈ gsBorn (cs, t) s, g.domain ≠ d) := by
  obtain ⟨hs1, hs2⟩ := hS
  have hupd : livingGodsIn (updateExisting (aggregate_beliefs cs) t s.gods) d = [] :=
    updateExisting_living_nil _ _ _ _ hempty
  have hlivF : (fun e =>
      !(livingGodsIn (updateExisting (aggregate_beliefs cs) t s.gods) e).isEmpty) d
      = false := by
    simp [hupd]
  have hprog := birthLoop_strong_progress (aggregate_beliefs cs)
    (fun e => !(livingGodsIn (updateExisting (aggregate_beliefs cs) t s.gods) e).isEmpty)
    t d hlivF hs1 hs2 DOMAINS s.proto s.rng (domain_mem_DOMAINS d) (by decide)
  obtain ⟨hp, hb⟩ := hprog.1 hk
  refine ⟨?_, hp, hb⟩
  show livingGodsIn (updateExisting (aggregate_beliefs cs) t s.gods ++
    (birthLoop (aggregate_beliefs cs)
      (fun e => !(livingGodsIn (updateExisting (aggregate_beliefs cs) t s.gods) e).isEmpty)
      t DOMAINS s.proto s.rng).2.1) d = []
  rw [livingGodsIn, List.filter_append]
  rw [livingGodsIn] at hupd
  rw [hupd, List.nil_append, List.filter_eq_nil_iff]
  intro g hg hgp
  exact hb g hg ((godLivingIn_iff d g).mp hgp).2

theorem gs_birth_final (cs : List Citizen) (t : Nat) (s : GSState) (d : Domain)
    (hS : StrongFor d cs) (hempty : livingGodsIn s.gods d = [])
    (hk : CONSECUTIVE_DAYS_BIRTH ≤ s.proto d + 1) :
    (∃ g ∈ gsBorn (cs, t) s,
      g.domain = d ∧ g.alive = true ∧ g.birth_day = t ∧ g.death_day = none) ∧
    (gsNext (cs, t) s).proto d = 0 := by
  obtain ⟨hs1, hs2⟩ := hS
  have hupd : livingGodsIn (updateExisting (aggregate_beliefs cs) t s.gods) d = [] :=
    updateExisting_living_nil _ _ _ _ hempty
  have hlivF : (fun e =>
      !(livingGodsIn (updateExisting (aggregate_beliefs cs) t s.gods) e).isEmpty) d
      = false := by
    simp [hupd]
  have hprog := birthLoop_strong_progress (aggregate_beliefs cs)
    (fun e => !(livingGodsIn (updateExisting (aggregate_beliefs cs) t s.gods) e).isEmpty)
    t d hlivF hs1 hs2 DOMAINS s.proto s.rng (domain_mem_DOMAINS d) (by decide)
  obtain ⟨hp, hex⟩ := hprog.2 hk
  exact ⟨hex, hp⟩

theorem gs_fade_step (cs : List Citizen) (t : Nat) (s : GSState) (d : Domain) (g0 : God)
    (hw : WeakFor d cs) (hone : livingGodsIn s.gods d = [g0])
    (hk : g0.consecutive_weak_days + 1 < CONSECUTIVE_DAYS_FADE) :
    livingGodsIn (gsNext (cs, t) s).gods d = [fadeStep (aggregate_beliefs cs) t g0] ∧
    (fadeStep (aggregate_beliefs cs) t g0).consecutive_weak_days =
      g0.consecutive_weak_days + 1 ∧
    (∀ x ∈ gsFaded (cs, t) s, x.domain ≠ d) := by
  have hw' : ((aggregate_beliefs cs) d).average_belief < FADE_THRESHOLD := hw
  obtain ⟨hupd, hfade⟩ :=
    updateExisting_living_single (aggregate_beliefs cs) t d s.gods g0 hone hw' hk
  have hg0 : g0.alive = true ∧ g0.domain = d := by
    have hm : g0 ∈ livingGodsIn s.gods d := by
      rw [hone]; exact List.mem_cons_self _ _
    exact (godLivingIn_iff d g0).mp (List.mem_filter.mp hm).2
  obtain ⟨hsal, hsweak⟩ :=
    fadeStep_weak_survive (aggregate_beliefs cs) t g0 (by rw [hg0.2]; exact hw') hk
  have hlivT :
      (!(livingGodsIn (updateExisting (aggregate_beliefs cs) t s.gods) d).isEmpty)
      = true := by
    simp [hupd]
  refine ⟨?_, hsweak, fun x hx => hfade x hx⟩
  show livingGodsIn (updateExisting (aggregate_beliefs cs) t s.gods ++
    (birthLoop (aggregate_beliefs cs)
      (fun e => !(livingGodsIn (updateExisting (aggregate_beliefs cs) t s.gods) e).isEmpty)
      t DOMAINS s.proto s.rng).2.1) d = [fadeStep (aggregate_beliefs cs) t g0]
  rw [livingGodsIn, List.filter_append]
  have hbornnil : ((birthLoop (aggregate_beliefs cs)
      (fun e => !(livingGodsIn (updateExisting (aggregate_beliefs cs) t s.gods) e).isEmpty)
      t DOMAINS s.proto s.rng).2.1).filter (godLivingIn d) = [] := by
    rw [List.filter_eq_nil_iff]
    intro g hg hgp
    obtain ⟨_, hliv, _⟩ := birthLoop_born_sound _ _ t DOMAINS s.proto s.rng g hg
    rw [((godLivingIn_iff d g).mp hgp).2, hlivT] at hliv
    exact Bool.true_eq_false.mp hliv
  rw [livingGodsIn] at hupd
  rw [hupd, hbornnil, List.append_nil]

theorem gs_fade_final (cs : List Citizen) (t : Nat) (s : GSState) (d : Domain) (g0 : God)
    (hw : WeakFor d cs) (hone : livingGodsIn s.gods d = [g0])
    (hk : CONSECUTIVE_DAYS_FADE ≤ g0.consecutive_weak_days + 1) :
    ∃ x ∈ gsFaded (cs, t) s, x.domain = d ∧ x.alive = false ∧ x.death_day = some t := by
  have hw' : ((aggregate_beliefs cs) d).average_belief < FADE_THRESHOLD := hw
  exact (updateExisting_living_single_fade (aggregate_beliefs cs) t d s.gods g0
    hone hw' hk).2

/-- C2: for a domain with no living god whose ascending streak is fresh,
5 consecutive process_gods ticks with mean belief ≥ 0.6 and coherence
≥ 0.5 birth no god on ticks 1–4 and birth a god in that domain on the
5th tick, with birthDay the current day and the ascending counter reset
to 0; and for a living god with a fresh weak streak, 7 consecutive ticks
with its domain's mean belief < 0.3 fade no god of that domain on ticks
1–6 and on the 7th tick mark it dead with deathDay the current day. -/
theorem spec_c2 :
    (∀ (c1 c2 c3 c4 c5 : List Citizen) (t1 t2 t3 t4 t5 : Nat) (s : GSState) (d : Domain),
      StrongFor d c1 → StrongFor d c2 → StrongFor d c3 → StrongFor d c4 →
      StrongFor d c5 →
      livingGodsIn s.gods d = [] → s.proto d = 0 →
      (∀ g ∈ gsBorn (c1, t1) s, g.domain ≠ d) ∧
      (∀ g ∈ gsBorn (c2, t2) (gsNext (c1, t1) s), g.domain ≠ d) ∧
      (∀ g ∈ gsBorn (c3, t3) (gsNext (c2, t2) (gsNext (c1, t1) s)), g.domain ≠ d) ∧
      (∀ g ∈ gsBorn (c4, t4)
        (gsNext (c3, t3) (gsNext (c2, t2) (gsNext (c1, t1) s))), g.domain ≠ d) ∧
      (∃ g ∈ gsBorn (c5, t5)
        (gsNext (c4, t4) (gsNext (c3, t3) (gsNext (c2, t2) (gsNext (c1, t1) s)))),
        g.domain = d ∧ g.alive = true ∧ g.birth_day = t5 ∧ g.death_day = none) ∧
      (gsNext (c5, t5)
        (gsNext (c4, t4) (gsNext (c3, t3)
          (gsNext (c2, t2) (gsNext (c1, t1) s))))).proto d = 0) ∧
    (∀ (w1 w2 w3 w4 w5 w6 w7 : List Citizen) (u1 u2 u3 u4 u5 u6 u7 : Nat)
        (s : GSState) (d : Domain) (g0 : God),
      WeakFor d w1 → WeakFor d w2 → WeakFor d w3 → WeakFor d w4 → WeakFor d w5 →
      WeakFor d w6 → WeakFor d w7 →
      livingGodsIn s.gods d = [g0] → g0.consecutive_weak_days = 0 →
      (∀ x ∈ gsFaded (w1, u1) s, x.domain ≠ d) ∧
      (∀ x ∈ gsFaded (w2, u2) (gsNext (w1, u1) s), x.domain ≠ d) ∧
      (∀ x ∈ gsFaded (w3, u3) (gsNext (w2, u2) (gsNext (w1, u1) s)), x.domain ≠ d) ∧
      (∀ x ∈ gsFaded (w4, u4)
        (gsNext (w3, u3) (gsNext (w2, u2) (gsNext (w1, u1) s))), x.domain ≠ d) ∧
      (∀ x ∈ gsFaded (w5, u5)
        (gsNext (w4, u4) (gsNext (w3, u3) (gsNext (w2, u2) (gsNext (w1, u1) s)))),
        x.domain ≠ d) ∧
      (∀ x ∈ gsFaded (w6, u6)
        (gsNext (w5, u5) (gsNext (w4, u4)
          (gsNext (w3, u3) (gsNext (w2, u2) (gsNext (w1, u1) s))))), x.domain ≠ d) ∧
      (∃ x ∈ gsFaded (w7, u7)
        (gsNext (w6, u6) (gsNext (w5, u5) (gsNext (w4, u4)
          (gsNext (w3, u3) (gsNext (w2, u2) (gsNext (w1, u1) s)))))),
        x.domain = d ∧ x.alive = false ∧ x.death_day = some u7)) := by
  constructor
  · intro c1 c2 c3 c4 c5 t1 t2 t3 t4 t5 s d hS1 hS2 hS3 hS4 hS5 h0 hp0
    obtain ⟨he1, hp1, hb1⟩ := gs_birth_step c1 t1 s d hS1 h0 (by rw [hp0]; decide)
    obtain ⟨he2, hp2, hb2⟩ := gs_birth_step c2 t2 _ d hS2 he1 (by rw [hp1, hp0]; decide)
    obtain ⟨he3, hp3, hb3⟩ := gs_birth_step c3 t3 _ d hS3 he2
      (by rw [hp2, hp1, hp0]; decide)
    obtain ⟨he4, hp4, hb4⟩ := gs_birth_step c4 t4 _ d hS4 he3
      (by rw [hp3, hp2, hp1, hp0]; decide)
    obtain ⟨hex, hpf⟩ := gs_birth_final c5 t5 _ d hS5 he4
      (by rw [hp4, hp3, hp2, hp1, hp0]; decide)
    exact ⟨hb1, hb2, hb3, hb4, hex, hpf⟩
  · intro w1 w2 w3 w4 w5 w6 w7 u1 u2 u3 u4 u5 u6 u7 s d g0
      hW1 hW2 hW3 hW4 hW5 hW6 hW7 h0 hw0
    obtain ⟨he1, hk1, hf1⟩ := gs_fade_step w1 u1 s d g0 hW1 h0 (by rw [hw0]; decide)
    obtain ⟨he2, hk2, hf2⟩ := gs_fade_step w2 u2 _ d _ hW2 he1
      (by rw [hk1, hw0]; decide)
    obtain ⟨he3, hk3, hf3⟩ := gs_fade_step w3 u3 _ d _ hW3 he2
      (by rw [hk2, hk1, hw0]; decide)
    obtain ⟨he4, hk4, hf4⟩ := gs_fade_step w4 u4 _ d _ hW4 he3
      (by rw [hk3, hk2, hk1, hw0]; decide)
    obtain ⟨he5, hk5, hf5⟩ := gs_fade_step w5 u5 _ d _ hW5 he4
      (by rw [hk4, hk3, hk2, hk1, hw0]; decide)
    obtain ⟨he6, hk6, hf6⟩ := gs_fade_step w6 u6 _ d _ hW6 he5
      (by rw [hk5, hk4, hk3, hk2, hk1, hw0]; decide)
    have hex := gs_fade_final w7 u7 _ d _ hW7 he6
      (by rw [hk6, hk5, hk4, hk3, hk2, hk1, hw0]; decide)
    exact ⟨hf1, hf2, hf3, hf4, hf5, hf6, hex⟩

/-- Witness for C2: a one-citizen population with uniform river belief
0.7 births a river god on the 5th strong tick from a fresh state, and a
living river god over a zero-belief population fades on the 7th weak
tick, with the claimed day stamps. -/
theorem spec_c2_witness :
    (∃ g ∈ gsBorn (strongPopulation, 5)
      (gsNext (strongPopulation, 4) (gsNext (strongPopulation, 3)
        (gsNext (strongPopulation, 2) (gsNext (strongPopulation, 1)
          ⟨[], fun _ => 0, ⟨1⟩⟩)))),
      g.domain = Domain.river ∧ g.alive = true ∧ g.birth_day = 5 ∧
        g.death_day = none) ∧
    (∃ x ∈ gsFaded (weakPopulation, 7)
      (gsNext (weakPopulation, 6) (gsNext (weakPopulation, 5)
        (gsNext (weakPopulation, 4) (gsNext (weakPopulation, 3)
          (gsNext (weakPopulation, 2) (gsNext (weakPopulation, 1)
            ⟨[riverGod], fun _ => 0, ⟨1⟩⟩)))))),
      x.domain = Domain.river ∧ x.alive = false ∧ x.death_day = some 7) := by
  have hS : StrongFor Domain.river strongPopulation := by
    constructor <;>
      norm_num [aggregateDomain, strongPopulation, BELIEF_THRESHOLD,
        COHERENCE_THRESHOLD, min_def, max_def]
  have hW : WeakFor Domain.river weakPopulation := by
    norm_num [WeakFor, aggregateDomain, weakPopulation, FADE_THRESHOLD]
  have hb := spec_c2.1 strongPopulation strongPopulation strongPopulation
    strongPopulation strongPopulation 1 2 3 4 5 ⟨[], fun _ => 0, ⟨1⟩⟩ Domain.river
    hS hS hS hS hS rfl rfl
  have hf := spec_c2.2 weakPopulation weakPopulation weakPopulation weakPopulation
    weakPopulation weakPopulation weakPopulation 1 2 3 4 5 6 7
    ⟨[riverGod], fun _ => 0, ⟨1⟩⟩ Domain.river riverGod
    hW hW hW hW hW hW hW rfl rfl
  exact ⟨hb.2.2.2.2.1, hf.2.2.2.2.2.2⟩

end Chronicle
